import Mathlib

/-!
# fand: a three-zone hysteresis fan controller

A shallow embedding of `main.cc`.  The program talks to the kernel through
`sysctlbyname`, `setpriority` and `usleep`, and prints to `cout`.  The kernel is a
parameter (`Kernel σ`); every call the program makes is threaded through a `World σ`,
which carries the kernel state and the chronological list of calls and prints.

C++ `int` is modelled by `Int`; the two places where the program does arithmetic on
`int` (`max+MORE` and `++escapeTimes`) go through `wrapInt`, the 32-bit two's
complement wrap.  Timestamps produced by `DateTime()` are not modelled: a printed
line is recorded without its timestamp.

The poll loop of `main` need not end, so `pollLoop` and `main` take a bound on the
number of passes through the loop body and return `none` when it is used up; a result
that is reached stays the same with any larger bound (`pollLoop_mono`).  Statements
about the states the loop goes through are made with `pass` and `passes`, which step
through the same loop body one pass at a time.
-/

namespace Fand

/-! ## Machine integers -/

/-- Smallest value of a 32-bit `int`. -/
def INT_MIN : Int := -2147483648

/-- Largest value of a 32-bit `int`. -/
def INT_MAX : Int := 2147483647

/-- Two's complement wrap of an integer to the 32-bit `int` range. -/
def wrapInt (x : Int) : Int := (x + 2147483648) % 4294967296 - 2147483648

/-! ## The kernel and the world -/

/-- What the program prints on `cout` (timestamps left out). -/
inductive Line where
  /-- Printed by `DateTime() << " " << prevLevel << " => " << level`. -/
  | switching (prevLevel level : Int)
  /-- The bare `endl` that closes a switch line after a write that worked. -/
  | done
  /-- Printed by `" Failed!" << endl`. -/
  | failed
  /-- Printed by `"renice myself failed!"`. -/
  | reniceFailed
  /-- Printed by `"can't switch to manual mode!"`. -/
  | manualFailed
  /-- Printed by `DateTime() << " begin"`. -/
  | begin
  /-- Printed by `DateTime() << " end"`. -/
  | finish
  /-- Printed by `DateTime() << " recovered"`. -/
  | recovered
  deriving DecidableEq, Repr

/-- One observable action of the program, with the answer the kernel gave. -/
inductive Event where
  /-- Call `setpriority(PRIO_PROCESS, 0, nice)`; `ok` when it returned 0. -/
  | setpriority (nice : Int) (ok : Bool)
  /-- Size query on `dev.acpi_ibm.0.thermal`; `none` when the call failed. -/
  | thermalLen (len : Option Nat)
  /-- Data read of `dev.acpi_ibm.0.thermal`; `ok` when it returned 0. -/
  | thermalRead (ok : Bool)
  /-- Read of `dev.acpi_ibm.0.fan_level`; `none` when the call failed. -/
  | fanLevelRead (level : Option Int)
  /-- Write of `dev.acpi_ibm.0.fan_level`; `ok` when it returned 0. -/
  | fanLevelWrite (level : Int) (ok : Bool)
  /-- Write of `dev.acpi_ibm.0.fan`; `ok` when it returned 0. -/
  | fanWrite (val : Int) (ok : Bool)
  /-- Output on `cout`. -/
  | cout (l : Line)
  /-- Call `usleep(us)`. -/
  | usleep (us : Int)
  deriving DecidableEq, Repr

/-- The kernel side of the system calls of `main.cc`, over a kernel state `σ`.
Every call may change the kernel state and may fail. -/
structure Kernel (σ : Type) where
  /-- Answer to `setpriority(PRIO_PROCESS, 0, nice)`: `true` when it returns 0. -/
  setpriority : Int → σ → Bool × σ
  /-- Answer to the size query on the thermal node: the byte length, or `none`. -/
  thermalLen : σ → Option Nat × σ
  /-- Answer to the data read on the thermal node: given the caller's buffer, the
  status (`true` when the call returns 0) and the buffer afterwards. -/
  thermalRead : List Int → σ → (Bool × List Int) × σ
  /-- Answer to the read of the fan level: the level, or `none` on failure. -/
  fanLevelRead : σ → Option Int × σ
  /-- Answer to the write of the fan level: `true` when it returns 0. -/
  fanLevelWrite : Int → σ → Bool × σ
  /-- Answer to the write of the fan (automatic mode) switch: `true` when it returns 0. -/
  fanWrite : Int → σ → Bool × σ

/-- Kernel state together with everything the program did so far, oldest first. -/
structure World (σ : Type) where
  hw : σ
  trace : List Event

variable {σ : Type}

/-- Record one event at the end of the trace. -/
def World.emit (w : World σ) (e : Event) : World σ :=
  { w with trace := w.trace ++ [e] }

/-- Call `sysctlbyname(ctl_fanlevel, &prevLevel, &levelLen, nullptr, 0)`. -/
def sysctlFanLevelRead (k : Kernel σ) (w : World σ) : Option Int × World σ :=
  let r := k.fanLevelRead w.hw
  (r.1, { hw := r.2, trace := w.trace ++ [Event.fanLevelRead r.1] })

/-- Call `sysctlbyname(ctl_fanlevel, nullptr, 0, &level, sizeof(level))`. -/
def sysctlFanLevelWrite (k : Kernel σ) (level : Int) (w : World σ) : Bool × World σ :=
  let r := k.fanLevelWrite level w.hw
  (r.1, { hw := r.2, trace := w.trace ++ [Event.fanLevelWrite level r.1] })

/-- Call `sysctlbyname(ctl_fan, nullptr, 0, &val, sizeof(val))`. -/
def sysctlFanWrite (k : Kernel σ) (val : Int) (w : World σ) : Bool × World σ :=
  let r := k.fanWrite val w.hw
  (r.1, { hw := r.2, trace := w.trace ++ [Event.fanWrite val r.1] })

/-! ## `IHandler` -/

/-- Result of `Handle`, as `enum class EmHandleRet`. -/
inductive EmHandleRet where
  | Ok
  | Err
  | Out
  deriving DecidableEq, Repr

/-- The static members `IHandler::HOLD_TIMES` and `IHandler::MORE`. -/
structure Statics where
  HOLD_TIMES : Int
  MORE : Int
  deriving DecidableEq, Repr

/-- The static member function `IHandler::TrySwitch(level)`. -/
def TrySwitch (k : Kernel σ) (level : Int) (w : World σ) : Bool × World σ :=
  match sysctlFanLevelRead k w with
  | (none, w1) => (false, w1)
  | (some prevLevel, w1) =>
    if prevLevel = level then (true, w1)
    else
      let w2 := w1.emit (Event.cout (Line.switching prevLevel level))
      match sysctlFanLevelWrite k level w2 with
      | (true, w3) => (true, w3.emit (Event.cout Line.done))
      | (false, w3) => (true, w3.emit (Event.cout Line.failed))

/-- The expression `TrySwitch(level) ? EmHandleRet::Ok : EmHandleRet::Err`. -/
def switchRet (r : Bool × World σ) : EmHandleRet × World σ :=
  (if r.1 then EmHandleRet.Ok else EmHandleRet.Err, r.2)

/-- Fields of `struct LV1Handler`. -/
structure LV1Handler where
  max : Int
  deriving DecidableEq, Repr

/-- Fields of `struct LV2Handler`. -/
structure LV2Handler where
  max : Int
  min : Int
  escapeTimes : Int := 0
  deriving DecidableEq, Repr

/-- Fields of `struct LV3Handler`. -/
structure LV3Handler where
  min : Int
  escapeTimes : Int := 0
  deriving DecidableEq, Repr

/-- The member function `LV1Handler::Handle(t)`. -/
def LV1Handler.Handle (k : Kernel σ) (st : Statics) (h : LV1Handler) (t : Int)
    (w : World σ) : EmHandleRet × LV1Handler × World σ :=
  if t > wrapInt (h.max + st.MORE) then
    (EmHandleRet.Out, h, w)
  else
    let r := switchRet (TrySwitch k 1 w)
    (r.1, h, r.2)

/-- The member function `LV1Handler::InRange(t)`. -/
def LV1Handler.InRange (h : LV1Handler) (t : Int) : Bool :=
  decide (t ≤ h.max)

/-- The member function `LV2Handler::Handle(t)`. -/
def LV2Handler.Handle (k : Kernel σ) (st : Statics) (h : LV2Handler) (t : Int)
    (w : World σ) : EmHandleRet × LV2Handler × World σ :=
  if t > wrapInt (h.max + st.MORE) then
    (EmHandleRet.Out, { h with escapeTimes := 0 }, w)
  else if t ≤ h.min then
    let h1 : LV2Handler := { h with escapeTimes := wrapInt (h.escapeTimes + 1) }
    if h1.escapeTimes ≥ st.HOLD_TIMES then
      (EmHandleRet.Out, { h1 with escapeTimes := 0 }, w)
    else
      let r := switchRet (TrySwitch k 2 w)
      (r.1, h1, r.2)
  else
    let r := switchRet (TrySwitch k 2 w)
    (r.1, h, r.2)

/-- The member function `LV2Handler::InRange(t)`. -/
def LV2Handler.InRange (h : LV2Handler) (t : Int) : Bool :=
  decide (t > h.min) && decide (t ≤ h.max)

/-- The member function `LV3Handler::Handle(t)`. -/
def LV3Handler.Handle (k : Kernel σ) (st : Statics) (h : LV3Handler) (t : Int)
    (w : World σ) : EmHandleRet × LV3Handler × World σ :=
  if t ≤ h.min then
    let h1 : LV3Handler := { h with escapeTimes := wrapInt (h.escapeTimes + 1) }
    if h1.escapeTimes ≥ st.HOLD_TIMES then
      (EmHandleRet.Out, { h1 with escapeTimes := 0 }, w)
    else
      let r := switchRet (TrySwitch k 3 w)
      (r.1, h1, r.2)
  else
    let r := switchRet (TrySwitch k 3 w)
    (r.1, h, r.2)

/-- The member function `LV3Handler::InRange(t)`. -/
def LV3Handler.InRange (h : LV3Handler) (t : Int) : Bool :=
  decide (t > h.min)

/-! ## The handler objects of `main` and virtual dispatch -/

/-- The three handler objects `h1`, `h2`, `h3` that `main` creates. -/
structure Handlers where
  h1 : LV1Handler
  h2 : LV2Handler
  h3 : LV3Handler
  deriving DecidableEq, Repr

/-- A non-null `IHandler*` of `main`: the object it points to. -/
inductive Ptr where
  | h1
  | h2
  | h3
  deriving DecidableEq, Repr

/-- Virtual call `h->InRange(t)`. -/
def Handlers.InRange (hs : Handlers) (h : Ptr) (t : Int) : Bool :=
  match h with
  | Ptr.h1 => hs.h1.InRange t
  | Ptr.h2 => hs.h2.InRange t
  | Ptr.h3 => hs.h3.InRange t

/-- Virtual call `h->Handle(t)`; the object pointed to is updated in place. -/
def Handlers.Handle (k : Kernel σ) (st : Statics) (hs : Handlers) (h : Ptr) (t : Int)
    (w : World σ) : EmHandleRet × Handlers × World σ :=
  match h with
  | Ptr.h1 =>
    let r := hs.h1.Handle k st t w
    (r.1, { hs with h1 := r.2.1 }, r.2.2)
  | Ptr.h2 =>
    let r := hs.h2.Handle k st t w
    (r.1, { hs with h2 := r.2.1 }, r.2.2)
  | Ptr.h3 =>
    let r := hs.h3.Handle k st t w
    (r.1, { hs with h3 := r.2.1 }, r.2.2)

/-- The array `handlers[3] = { &h1, &h2, &h3 }`. -/
def handlers : List Ptr := [Ptr.h1, Ptr.h2, Ptr.h3]

/-- The lambda `FnPickHandler`: the first handler of `handlers` whose `InRange(t)`
holds, `none` standing for `nullptr`. -/
def FnPickHandler (hs : Handlers) (t : Int) : Option Ptr :=
  handlers.find? (fun h => hs.InRange h t)

/-! ## `FetchThermal` -/

/-- The type `array<int, 8>`. -/
abbrev Thermal : Type := { l : List Int // l.length = 8 }

/-- Element access `thermal[i]`. -/
def Thermal.at (a : Thermal) (i : Fin 8) : Int :=
  a.1.get ⟨i.1, by rw [a.2]; exact i.2⟩

/-- The algorithm `std::replace_if(first, last, p, new_value)` on a range. -/
def replace_if (p : Int → Bool) (new_value : Int) : List Int → List Int
  | [] => []
  | x :: xs => (if p x then new_value else x) :: replace_if p new_value xs

theorem replace_if_length (p : Int → Bool) (v : Int) (l : List Int) :
    (replace_if p v l).length = l.length := by
  induction l with
  | nil => rfl
  | cons x xs ih => simp [replace_if, ih]

/-- The value `sizeof(thermal)`: eight 4-byte `int`s. -/
def sizeofThermal : Nat := 32

/-- Call `sysctlbyname(ctl_thermal, nullptr, &thermalLen, nullptr, 0)`. -/
def sysctlThermalLen (k : Kernel σ) (w : World σ) : Option Nat × World σ :=
  let r := k.thermalLen w.hw
  (r.1, { hw := r.2, trace := w.trace ++ [Event.thermalLen r.1] })

/-- Call `sysctlbyname(ctl_thermal, thermal.data(), &thermalLen, nullptr, 0)`.  A
kernel answer that is not eight values long leaves the buffer as it was. -/
def sysctlThermalRead (k : Kernel σ) (thermal : Thermal) (w : World σ) :
    (Bool × Thermal) × World σ :=
  let r := k.thermalRead thermal.1 w.hw
  let buf : Thermal := if h : r.1.2.length = 8 then ⟨r.1.2, h⟩ else thermal
  ((r.1.1, buf), { hw := r.2, trace := w.trace ++ [Event.thermalRead r.1.1] })

/-- The lambda `[](int t)->bool { return t >= 255; }` of `FetchThermal`. -/
def isInvalid (t : Int) : Bool := decide (t ≥ 255)

/-- The function `FetchThermal(thermal)`: verify, fetch, normalize. -/
def FetchThermal (k : Kernel σ) (thermal : Thermal) (w : World σ) :
    Bool × Thermal × World σ :=
  match sysctlThermalLen k w with
  | (none, w1) => (false, thermal, w1)
  | (some thermalLen, w1) =>
    if thermalLen ≠ sizeofThermal then (false, thermal, w1)
    else
      match sysctlThermalRead k thermal w1 with
      | ((false, buf), w2) => (false, buf, w2)
      | ((true, buf), w2) =>
        (true, ⟨replace_if isInvalid (-1) buf.1, by rw [replace_if_length]; exact buf.2⟩, w2)

/-! ## `main` -/

/-- The constant `hold` of `main`, in ms. -/
def hold : Int := 30 * 1000

/-- The constant `tick` of `main`, in ms. -/
def tick : Int := 500

/-- The constant `nice` of `main`. -/
def nice : Int := -10

/-- The statics as `main` sets them: `MORE = 5`, `HOLD_TIMES = hold/tick`. -/
def mainStatics : Statics := { HOLD_TIMES := Int.tdiv hold tick, MORE := 5 }

/-- The handlers as `main` prepares them. -/
def mainHandlers : Handlers :=
  { h1 := { max := 40 }, h2 := { min := 40, max := 50 }, h3 := { min := 50 } }

/-- The variables of `main` that live across iterations of the poll loop. -/
structure LoopState (σ : Type) where
  thermal : Thermal
  hs : Handlers
  h : Option Ptr
  w : World σ

/-- The part of the loop body after `int cpu = thermal[0]`: the call `h->Handle(cpu)`
and the `switch` on its result, down to `usleep`.  The flag of the result is `true`
when the loop is left through `break`, which this part never does. -/
def handleTick (k : Kernel σ) (st : Statics) (hs : Handlers) (h : Ptr)
    (thermal : Thermal) (cpu : Int) (w : World σ) : Bool × LoopState σ :=
  match Handlers.Handle k st hs h cpu w with
  | (EmHandleRet.Out, hs1, w1) =>
    let h' := FnPickHandler hs1 cpu
    -- avoid busy Handle()
    if h' ≠ some h then
      (false, { thermal := thermal, hs := hs1, h := h', w := w1 })
    else
      (false, { thermal := thermal, hs := hs1, h := some h,
                w := w1.emit (Event.usleep (tick * 1000)) })
  | (EmHandleRet.Ok, hs1, w1) =>
    (false, { thermal := thermal, hs := hs1, h := some h,
              w := w1.emit (Event.usleep (tick * 1000)) })
  | (EmHandleRet.Err, hs1, w1) =>
    (false, { thermal := thermal, hs := hs1, h := none, w := w1 })

/-- One pass through the body of the poll loop with `h` non-null.  The flag is
`true` when the pass left the loop through `break` after a failed fetch. -/
def loopBody (k : Kernel σ) (st : Statics) (s : LoopState σ) (h : Ptr) :
    Bool × LoopState σ :=
  match FetchThermal k s.thermal s.w with
  | (false, thermal, w1) => (true, { s with thermal := thermal, w := w1 })
  | (true, thermal, w1) => handleTick k st s.hs h thermal (thermal.at 0) w1

/-- The poll loop `for (...; h != nullptr; )`, run for at most `fuel` passes through
its body; `none` when the fuel runs out before the loop ends. -/
def pollLoop (k : Kernel σ) (st : Statics) (fuel : Nat) (s : LoopState σ) :
    Option (LoopState σ) :=
  match s.h with
  | none => some s
  | some h =>
    match fuel with
    | 0 => none
    | fuel + 1 =>
      match loopBody k st s h with
      | (true, s1) => some s1
      | (false, s1) => pollLoop k st fuel s1

/-- The function `main`: the exit code and the final world, or `none` when the poll
loop has not ended within `fuel` passes.  The local `thermal` starts as `thermal0`. -/
def main (k : Kernel σ) (fuel : Nat) (thermal0 : Thermal) (hw0 : σ) :
    Option (Int × World σ) :=
  let w0 : World σ := { hw := hw0, trace := [] }
  let st := mainStatics
  -- renice
  let r := k.setpriority nice w0.hw
  let w1 : World σ := { hw := r.2, trace := w0.trace ++ [Event.setpriority nice r.1] }
  if r.1 = false then
    some (1, w1.emit (Event.cout Line.reniceFailed))
  else
    -- prepare
    let hs := mainHandlers
    -- switch to manual mode
    match sysctlFanLevelWrite k 1 w1 with
    | (false, w2) => some (1, w2.emit (Event.cout Line.manualFailed))
    | (true, w2) =>
      match sysctlFanWrite k 0 w2 with
      | (false, w3) => some (1, w3.emit (Event.cout Line.manualFailed))
      | (true, w3) =>
        -- begin to work
        let w4 := w3.emit (Event.cout Line.begin)
        match pollLoop k st fuel
            { thermal := thermal0, hs := hs, h := FnPickHandler hs 10, w := w4 } with
        | none => none
        | some s =>
          let w5 := s.w.emit (Event.cout Line.finish)
          -- recover to automatic mode
          match sysctlFanWrite k 1 w5 with
          | (false, w6) => some (1, w6)
          | (true, w6) => some (0, w6.emit (Event.cout Line.recovered))

/-! ## Feeding a handler a sequence of temperatures -/

/-- Call `h2.Handle` once for each temperature of the list, in order, on the same
object; the results of the calls, the object and the world afterwards. -/
def LV2Handler.feed (k : Kernel σ) (st : Statics) :
    LV2Handler → List Int → World σ → List EmHandleRet × LV2Handler × World σ
  | h, [], w => ([], h, w)
  | h, t :: ts, w =>
    let r := h.Handle k st t w
    let rs := LV2Handler.feed k st r.2.1 ts r.2.2
    (r.1 :: rs.1, rs.2)

/-- Call `h3.Handle` once for each temperature of the list, in order, on the same
object; the results of the calls, the object and the world afterwards. -/
def LV3Handler.feed (k : Kernel σ) (st : Statics) :
    LV3Handler → List Int → World σ → List EmHandleRet × LV3Handler × World σ
  | h, [], w => ([], h, w)
  | h, t :: ts, w =>
    let r := h.Handle k st t w
    let rs := LV3Handler.feed k st r.2.1 ts r.2.2
    (r.1 :: rs.1, rs.2)

/-! ## Passes of the poll loop, and the parts of `main` around it -/

/-- The call `FetchThermal(thermal)` at the top of a pass from state `s`. -/
def fetched (k : Kernel σ) (s : LoopState σ) : Bool × Thermal × World σ :=
  FetchThermal k s.thermal s.w

/-- The call `h->Handle(cpu)` of a pass from state `s` with `h` pointing to `z`, made
after a fetch that worked, with `cpu = thermal[0]` of the fetched array. -/
def handled (k : Kernel σ) (st : Statics) (s : LoopState σ) (z : Ptr) :
    EmHandleRet × Handlers × World σ :=
  Handlers.Handle k st s.hs z ((fetched k s).2.1.at 0) (fetched k s).2.2

/-- One pass of the poll loop seen from outside: the state with which the loop goes
round again, or `none` when the loop is over (`h` is null, or the pass hit `break`). -/
def pass (k : Kernel σ) (st : Statics) (s : LoopState σ) : Option (LoopState σ) :=
  match s.h with
  | none => none
  | some h =>
    match loopBody k st s h with
    | (true, _) => none
    | (false, s1) => some s1

/-- The state after `n` passes of the poll loop, `none` when the loop ended earlier. -/
def passes (k : Kernel σ) (st : Statics) : Nat → LoopState σ → Option (LoopState σ)
  | 0, s => some s
  | n + 1, s =>
    match pass k st s with
    | none => none
    | some s1 => passes k st n s1

/-- A pass from `s` to `s1` switched the active zone: `h` is non-null afterwards and
differs from what it was. -/
def switched (s s1 : LoopState σ) : Bool :=
  s1.h.isSome && decide (s1.h ≠ s.h)

/-- The next `m` passes from `s` all take place and all switch the active zone. -/
def switchChain (k : Kernel σ) (st : Statics) : Nat → LoopState σ → Bool
  | 0, _ => true
  | m + 1, s =>
    match pass k st s with
    | none => false
    | some s1 => switched s s1 && switchChain k st m s1

/-- Whether `main` gets as far as the poll loop: `setpriority` and the two writes that
switch to manual mode all return 0. -/
def startupOk (k : Kernel σ) (hw0 : σ) : Bool :=
  (k.setpriority nice hw0).1 &&
    (k.fanLevelWrite 1 (k.setpriority nice hw0).2).1 &&
    (k.fanWrite 0 (k.fanLevelWrite 1 (k.setpriority nice hw0).2).2).1

/-- The variables of `main` on entry to the poll loop, after `" begin"` is printed (of
use when `startupOk` holds). -/
def bootState (k : Kernel σ) (thermal0 : Thermal) (hw0 : σ) : LoopState σ :=
  let r := k.setpriority nice hw0
  let w1 : World σ := { hw := r.2, trace := [Event.setpriority nice r.1] }
  let w2 := (sysctlFanLevelWrite k 1 w1).2
  let w3 := (sysctlFanWrite k 0 w2).2
  { thermal := thermal0, hs := mainHandlers, h := FnPickHandler mainHandlers 10,
    w := w3.emit (Event.cout Line.begin) }

/-- The part of `main` after the poll loop: print `" end"`, switch back to automatic
mode, and return. -/
def recover (k : Kernel σ) (s : LoopState σ) : Int × World σ :=
  let w5 := s.w.emit (Event.cout Line.finish)
  match sysctlFanWrite k 1 w5 with
  | (false, w6) => (1, w6)
  | (true, w6) => (0, w6.emit (Event.cout Line.recovered))

/-- Events of reading the sensors. -/
def Event.isSensor : Event → Bool
  | Event.thermalLen _ => true
  | Event.thermalRead _ => true
  | _ => false

/-- Events of reading or writing the fan level. -/
def Event.isFanLevel : Event → Bool
  | Event.fanLevelRead _ => true
  | Event.fanLevelWrite _ _ => true
  | _ => false

/-- The events a pass of the poll loop can produce: sensor reads, fan-level reads and
writes, the lines of a level switch, and `usleep`. -/
def Event.isLoop : Event → Bool
  | Event.thermalLen _ => true
  | Event.thermalRead _ => true
  | Event.fanLevelRead _ => true
  | Event.fanLevelWrite _ _ => true
  | Event.cout (Line.switching _ _) => true
  | Event.cout Line.done => true
  | Event.cout Line.failed => true
  | Event.usleep _ => true
  | _ => false

/-- The write that switches back to automatic mode, whatever its outcome. -/
def Event.isRestore : Event → Bool
  | Event.fanWrite 1 _ => true
  | _ => false

/-- World `w1` continues `w` by events of the poll loop only. -/
def LoopExt (w w1 : World σ) : Prop :=
  ∃ evs, w1.trace = w.trace ++ evs ∧ ∀ e ∈ evs, e.isLoop = true

/-- The escape counters in a loop state are as a fresh visit needs them: both in
`[0, HOLD_TIMES)`, and zero for a zone that is not the active one. -/
def CountersOk (st : Statics) (s : LoopState σ) : Prop :=
  (0 ≤ s.hs.h2.escapeTimes ∧ s.hs.h2.escapeTimes < st.HOLD_TIMES ∧
    0 ≤ s.hs.h3.escapeTimes ∧ s.hs.h3.escapeTimes < st.HOLD_TIMES) ∧
  ∀ z, s.h = some z →
    (z ≠ Ptr.h2 → s.hs.h2.escapeTimes = 0) ∧ (z ≠ Ptr.h3 → s.hs.h3.escapeTimes = 0)

/-- The handlers in a loop state have the thresholds of `main`, and the escape
counters are as `CountersOk` says for the statics of `main`. -/
def MainInv (s : LoopState σ) : Prop :=
  s.hs.h1.max = 40 ∧ s.hs.h2.min = 40 ∧ s.hs.h2.max = 50 ∧ s.hs.h3.min = 50 ∧
    CountersOk mainStatics s

/-- How many zones lie above the active one: 2 for zone 1, 1 for zone 2, 0 for zone 3
(and for a null `h`). -/
def zonesAbove (s : LoopState σ) : Nat :=
  match s.h with
  | some Ptr.h1 => 2
  | some Ptr.h2 => 1
  | _ => 0

/-! ## A simulated machine, for concrete runs -/

/-- State of a simulated machine. -/
structure Sim where
  /-- The fan level the hardware reports. -/
  level : Int
  /-- How many of the coming fan-level writes fail. -/
  failWrites : Nat
  /-- The coming sensor readings; the data read fails once they are used up. -/
  temps : List (List Int)
  deriving DecidableEq, Repr

/-- The simulated kernel, with fan-level reads that work (`readable`) or all fail.  A
fan-level write that works sets the reported level, a failing one leaves it; a read
reports the level and changes nothing. -/
def simKernel (readable : Bool) : Kernel Sim where
  setpriority := fun _ s => (true, s)
  thermalLen := fun s => (some 32, s)
  thermalRead := fun buf s =>
    match s.temps with
    | [] => ((false, buf), s)
    | r :: rest => ((true, r), { s with temps := rest })
  fanLevelRead := fun s => (if readable then some s.level else none, s)
  fanLevelWrite := fun v s =>
    match s.failWrites with
    | 0 => (true, { s with level := v })
    | n + 1 => (false, { s with failWrites := n })
  fanWrite := fun _ s => (true, s)

/-- The simulated kernel on which every write of the fan (automatic mode) switch
fails. -/
def simKernelFanFails (readable : Bool) : Kernel Sim :=
  { simKernel readable with fanWrite := fun _ s => (false, s) }

/-- A simulated world with an empty trace. -/
def simWorld (level : Int) (failWrites : Nat) (temps : List (List Int)) : World Sim :=
  { hw := { level := level, failWrites := failWrites, temps := temps }, trace := [] }

/-- Sensor readings for a run with three zone switches in a row: 55 once (zone 1 to
zone 3), 50 for 59 passes (zone 3 counts to 59), then 30 (zone 3 to zone 1), 47 (zone 1
to zone 2), 56 (zone 2 to zone 3) and 56 again. -/
def simChainTemps : List (List Int) :=
  [[55, 0, 0, 0, 0, 0, 0, 0]] ++ List.replicate 59 [50, 0, 0, 0, 0, 0, 0, 0] ++
    [[30, 0, 0, 0, 0, 0, 0, 0], [47, 0, 0, 0, 0, 0, 0, 0], [56, 0, 0, 0, 0, 0, 0, 0],
     [56, 0, 0, 0, 0, 0, 0, 0]]

/-- The loop state at the first pass of the poll loop of `main` on a simulated world,
with the local `thermal` all zero. -/
def simLoopState (w : World Sim) : LoopState Sim :=
  { thermal := ⟨[0, 0, 0, 0, 0, 0, 0, 0], rfl⟩, hs := mainHandlers,
    h := FnPickHandler mainHandlers 10, w := w }

/-! ## Basic facts -/

theorem wrapInt_eq_self {x : Int} (h1 : INT_MIN ≤ x) (h2 : x ≤ INT_MAX) :
    wrapInt x = x := by
  unfold wrapInt
  unfold INT_MIN at h1
  unfold INT_MAX at h2
  omega

theorem TrySwitch_fst (k : Kernel σ) (level : Int) (w : World σ) :
    (TrySwitch k level w).1 = (k.fanLevelRead w.hw).1.isSome := by
  simp only [TrySwitch, sysctlFanLevelRead]
  cases hr : (k.fanLevelRead w.hw).1 with
  | none => simp
  | some p =>
    by_cases hp : p = level
    · simp [hp]
    · simp only [hp, if_false, Option.isSome_some]
      split <;> rfl

theorem TrySwitch_same (k : Kernel σ) (level : Int) (w : World σ)
    (hr : (k.fanLevelRead w.hw).1 = some level) :
    TrySwitch k level w =
      (true, { hw := (k.fanLevelRead w.hw).2,
               trace := w.trace ++ [Event.fanLevelRead (some level)] }) := by
  unfold TrySwitch sysctlFanLevelRead
  simp [hr]

/-! ## Zone ranges and the selector -/

/-- C2: with the thresholds of `main` (zone 1 up to 40, zone 2 in (40,50], zone 3
above 50), for every temperature `t >= 0` exactly one of the three handlers has
`InRange(t)` true. -/
theorem InRange_exactly_one (t : Int) (ht : 0 ≤ t) :
    (mainHandlers.h1.InRange t = true ∧ mainHandlers.h2.InRange t = false ∧
        mainHandlers.h3.InRange t = false) ∨
      (mainHandlers.h1.InRange t = false ∧ mainHandlers.h2.InRange t = true ∧
        mainHandlers.h3.InRange t = false) ∨
      (mainHandlers.h1.InRange t = false ∧ mainHandlers.h2.InRange t = false ∧
        mainHandlers.h3.InRange t = true) := by
  simp only [mainHandlers, LV1Handler.InRange, LV2Handler.InRange, LV3Handler.InRange,
    Bool.and_eq_true, Bool.and_eq_false_iff, decide_eq_true_eq, decide_eq_false_iff_not]
  omega

/-- At `t = 45` exactly one range test holds (that of zone 2). -/
theorem InRange_exactly_one_witness :
    (0 : Int) ≤ 45 ∧
      ((mainHandlers.h1.InRange 45 = true ∧ mainHandlers.h2.InRange 45 = false ∧
          mainHandlers.h3.InRange 45 = false) ∨
        (mainHandlers.h1.InRange 45 = false ∧ mainHandlers.h2.InRange 45 = true ∧
          mainHandlers.h3.InRange 45 = false) ∨
        (mainHandlers.h1.InRange 45 = false ∧ mainHandlers.h2.InRange 45 = false ∧
          mainHandlers.h3.InRange 45 = true)) :=
  ⟨by decide, InRange_exactly_one 45 (by decide)⟩

/-- C3, as stated, fails: at the sentinel `-1` it is not the case that no handler is
in range and the selector returns `nullptr`; `h1.InRange(-1)` is true. -/
theorem sentinel_matches_no_zone_counterexample :
    ¬ (mainHandlers.h1.InRange (-1) = false ∧ mainHandlers.h2.InRange (-1) = false ∧
        mainHandlers.h3.InRange (-1) = false ∧ FnPickHandler mainHandlers (-1) = none) := by
  decide

/-- C3, amended: at the sentinel `-1` the range test of zone 1 holds (it has no lower
bound) and those of zones 2 and 3 do not, and the selector applied to `-1` returns
zone 1, not `nullptr`. -/
theorem sentinel_matches_zone1 :
    mainHandlers.h1.InRange (-1) = true ∧ mainHandlers.h2.InRange (-1) = false ∧
      mainHandlers.h3.InRange (-1) = false ∧
      FnPickHandler mainHandlers (-1) = some Ptr.h1 := by
  decide

/-- C9: the selector scans the handlers in the order 1, 2, 3 and returns the first one
in range: it returns handler `i` iff `InRange_i(t)` holds and `InRange_j(t)` fails for
every `j < i`, and it returns `nullptr` iff no handler is in range. -/
theorem FnPickHandler_first_in_range (hs : Handlers) (t : Int) :
    (FnPickHandler hs t = some Ptr.h1 ↔ hs.h1.InRange t = true) ∧
      (FnPickHandler hs t = some Ptr.h2 ↔
        hs.h2.InRange t = true ∧ hs.h1.InRange t = false) ∧
      (FnPickHandler hs t = some Ptr.h3 ↔
        hs.h3.InRange t = true ∧ hs.h1.InRange t = false ∧ hs.h2.InRange t = false) ∧
      (FnPickHandler hs t = none ↔
        hs.h1.InRange t = false ∧ hs.h2.InRange t = false ∧ hs.h3.InRange t = false) := by
  unfold FnPickHandler handlers
  simp only [List.find?, Handlers.InRange]
  cases hs.h1.InRange t <;> cases hs.h2.InRange t <;> cases hs.h3.InRange t <;> simp

/-! ## The step functions of the three zones -/

theorem switchRet_TrySwitch_fst (k : Kernel σ) (level : Int) (w : World σ) :
    (switchRet (TrySwitch k level w)).1 =
      if (k.fanLevelRead w.hw).1.isSome then EmHandleRet.Ok else EmHandleRet.Err := by
  simp [switchRet, TrySwitch_fst]

theorem switchRet_snd (r : Bool × World σ) : (switchRet r).2 = r.2 := rfl

/-- C4: `LV1Handler::Handle(t)` returns `Out` iff `t > max + MORE` (the sum being an
`int`), and then touches nothing; otherwise it is exactly a `TrySwitch(1)`, with result
`Ok` when the fan-level read succeeds and `Err` when it fails.  With `max = 40`,
`MORE = 5` and a succeeding read, 45 gives `Ok` and 46 gives `Out`. -/
theorem LV1Handler_Handle_margin (k : Kernel σ) (st : Statics) (h : LV1Handler)
    (t : Int) (w : World σ)
    (hlo : INT_MIN ≤ h.max + st.MORE) (hhi : h.max + st.MORE ≤ INT_MAX) :
    ((h.Handle k st t w).1 = EmHandleRet.Out ↔ t > h.max + st.MORE) ∧
      (t > h.max + st.MORE → (h.Handle k st t w).2.2 = w) ∧
      (¬ t > h.max + st.MORE →
        (h.Handle k st t w).2.2 = (TrySwitch k 1 w).2 ∧
        ((k.fanLevelRead w.hw).1 ≠ none → (h.Handle k st t w).1 = EmHandleRet.Ok) ∧
        ((k.fanLevelRead w.hw).1 = none → (h.Handle k st t w).1 = EmHandleRet.Err)) ∧
      ((k.fanLevelRead w.hw).1 ≠ none →
        (mainHandlers.h1.Handle k mainStatics 45 w).1 = EmHandleRet.Ok ∧
        (mainHandlers.h1.Handle k mainStatics 46 w).1 = EmHandleRet.Out) := by
  have hw : wrapInt (h.max + st.MORE) = h.max + st.MORE := wrapInt_eq_self hlo hhi
  have h45 : wrapInt (mainHandlers.h1.max + mainStatics.MORE) = 45 := by decide
  refine ⟨?_, ?_, ?_, ?_⟩
  · unfold LV1Handler.Handle
    rw [hw]
    by_cases ht : t > h.max + st.MORE
    · simp [ht]
    · simp only [ht, if_false, iff_false, switchRet_TrySwitch_fst]
      split <;> simp
  · intro ht
    unfold LV1Handler.Handle
    rw [hw]
    simp [ht]
  · intro ht
    unfold LV1Handler.Handle
    rw [hw]
    simp only [ht, if_false, switchRet_TrySwitch_fst, switchRet_snd, true_and]
    constructor
    · intro hr
      simp [Option.isSome_iff_ne_none.mpr hr]
    · intro hr
      simp [hr]
  · intro hr
    unfold LV1Handler.Handle
    rw [h45]
    simp [switchRet_TrySwitch_fst, Option.isSome_iff_ne_none.mpr hr]

/-- On the simulated machine with working reads, zone 1 of `main` gives `Ok` at 45 and
`Out` at 46. -/
theorem LV1Handler_Handle_margin_witness :
    ((simKernel true).fanLevelRead (simWorld 1 0 []).hw).1 ≠ none ∧
      (mainHandlers.h1.Handle (simKernel true) mainStatics 45 (simWorld 1 0 [])).1
        = EmHandleRet.Ok ∧
      (mainHandlers.h1.Handle (simKernel true) mainStatics 46 (simWorld 1 0 [])).1
        = EmHandleRet.Out :=
  ⟨by decide,
    (LV1Handler_Handle_margin (simKernel true) mainStatics mainHandlers.h1 45
      (simWorld 1 0 []) (by decide) (by decide)).2.2.2 (by decide)⟩

/-- Unfolded form of `LV2Handler::Handle` when neither `max+MORE` nor
`++escapeTimes` overflows. -/
theorem LV2Handler_Handle_eq (k : Kernel σ) (st : Statics) (h : LV2Handler)
    (t : Int) (w : World σ)
    (hlo : INT_MIN ≤ h.max + st.MORE) (hhi : h.max + st.MORE ≤ INT_MAX)
    (hclo : INT_MIN ≤ h.escapeTimes + 1) (hchi : h.escapeTimes + 1 ≤ INT_MAX) :
    h.Handle k st t w =
      if t > h.max + st.MORE then
        (EmHandleRet.Out, { h with escapeTimes := 0 }, w)
      else if t ≤ h.min ∧ h.escapeTimes + 1 ≥ st.HOLD_TIMES then
        (EmHandleRet.Out, { h with escapeTimes := 0 }, w)
      else
        (if (k.fanLevelRead w.hw).1.isSome then EmHandleRet.Ok else EmHandleRet.Err,
          if t ≤ h.min then { h with escapeTimes := h.escapeTimes + 1 } else h,
          (TrySwitch k 2 w).2) := by
  unfold LV2Handler.Handle
  rw [wrapInt_eq_self hlo hhi, wrapInt_eq_self hclo hchi]
  by_cases h1 : t > h.max + st.MORE
  · simp [h1]
  · by_cases h2 : t ≤ h.min
    · by_cases h3 : h.escapeTimes + 1 ≥ st.HOLD_TIMES
      · simp [h1, h2, h3]
      · simp [h1, h2, h3, switchRet_TrySwitch_fst, switchRet_snd]
    · simp [h1, h2, switchRet_TrySwitch_fst, switchRet_snd]

/-- Unfolded form of `LV3Handler::Handle` when `++escapeTimes` does not overflow. -/
theorem LV3Handler_Handle_eq (k : Kernel σ) (st : Statics) (h : LV3Handler)
    (t : Int) (w : World σ)
    (hclo : INT_MIN ≤ h.escapeTimes + 1) (hchi : h.escapeTimes + 1 ≤ INT_MAX) :
    h.Handle k st t w =
      if t ≤ h.min ∧ h.escapeTimes + 1 ≥ st.HOLD_TIMES then
        (EmHandleRet.Out, { h with escapeTimes := 0 }, w)
      else
        (if (k.fanLevelRead w.hw).1.isSome then EmHandleRet.Ok else EmHandleRet.Err,
          if t ≤ h.min then { h with escapeTimes := h.escapeTimes + 1 } else h,
          (TrySwitch k 3 w).2) := by
  unfold LV3Handler.Handle
  rw [wrapInt_eq_self hclo hchi]
  by_cases h2 : t ≤ h.min
  · by_cases h3 : h.escapeTimes + 1 ≥ st.HOLD_TIMES
    · simp [h2, h3]
    · simp [h2, h3, switchRet_TrySwitch_fst, switchRet_snd]
  · simp [h2, switchRet_TrySwitch_fst, switchRet_snd]

/-- C5: the step function of zone 2, for a counter `c` whose increment is an `int` and
`max + MORE` an `int`.  If `t > max + MORE`: counter 0, `Out`, world untouched.  Else
if `t <= min` and `c + 1 >= HOLD_TIMES`: counter 0, `Out`, world untouched.  Else if
`t <= min`: counter `c + 1` and a `TrySwitch(2)`.  Else: counter unchanged and a
`TrySwitch(2)`.  After a `TrySwitch(2)` the result is `Ok` if the fan-level read
succeeds and `Err` if it fails. -/
theorem LV2Handler_Handle_step (k : Kernel σ) (st : Statics) (h : LV2Handler)
    (t : Int) (w : World σ)
    (hlo : INT_MIN ≤ h.max + st.MORE) (hhi : h.max + st.MORE ≤ INT_MAX)
    (hclo : INT_MIN ≤ h.escapeTimes) (hchi : h.escapeTimes < INT_MAX) :
    (t > h.max + st.MORE →
        h.Handle k st t w = (EmHandleRet.Out, { h with escapeTimes := 0 }, w)) ∧
      (¬ t > h.max + st.MORE → t ≤ h.min → h.escapeTimes + 1 ≥ st.HOLD_TIMES →
        h.Handle k st t w = (EmHandleRet.Out, { h with escapeTimes := 0 }, w)) ∧
      (¬ t > h.max + st.MORE → t ≤ h.min → ¬ h.escapeTimes + 1 ≥ st.HOLD_TIMES →
        h.Handle k st t w =
          (if (k.fanLevelRead w.hw).1.isSome then EmHandleRet.Ok else EmHandleRet.Err,
            { h with escapeTimes := h.escapeTimes + 1 }, (TrySwitch k 2 w).2)) ∧
      (¬ t > h.max + st.MORE → ¬ t ≤ h.min →
        h.Handle k st t w =
          (if (k.fanLevelRead w.hw).1.isSome then EmHandleRet.Ok else EmHandleRet.Err,
            h, (TrySwitch k 2 w).2)) := by
  have e := LV2Handler_Handle_eq k st h t w hlo hhi
    (by unfold INT_MIN at *; omega) (by unfold INT_MAX at *; omega)
  refine ⟨?_, ?_, ?_, ?_⟩
  · intro h1
    rw [e]; simp [h1]
  · intro h1 h2 h3
    rw [e]; simp [h1, h2, h3]
  · intro h1 h2 h3
    rw [e]; simp [h1, h2, h3]
  · intro h1 h2
    rw [e]; simp [h1, h2]

/-- Zone 2 of `main` at counter 59 and `t = 39`: the 60th cool tick exits and resets
the counter, with the world untouched. -/
theorem LV2Handler_Handle_step_witness :
    INT_MIN ≤ (50 : Int) + 5 ∧ (50 : Int) + 5 ≤ INT_MAX ∧ INT_MIN ≤ 59 ∧ 59 < INT_MAX ∧
      LV2Handler.Handle (simKernel true) mainStatics { max := 50, min := 40, escapeTimes := 59 }
          39 (simWorld 2 0 [])
        = (EmHandleRet.Out, { max := 50, min := 40, escapeTimes := 0 },
            simWorld 2 0 []) :=
  ⟨by decide, by decide, by decide, by decide,
    (LV2Handler_Handle_step (simKernel true) mainStatics
      { max := 50, min := 40, escapeTimes := 59 } 39 (simWorld 2 0 [])
      (by decide) (by decide) (by decide) (by decide)).2.1
      (by decide) (by decide) (by decide)⟩

/-- C6: the step function of zone 3, for a counter `c` whose increment is an `int`.
It returns `Out` with the counter reset to 0 and the world untouched exactly when
`t <= min` and `c + 1 >= HOLD_TIMES`; when `t <= min` and `c + 1 < HOLD_TIMES` the
counter becomes `c + 1` and there is a `TrySwitch(3)`; when `t > min` the counter is
unchanged and there is a `TrySwitch(3)`, so no temperature above `min` exits.  After a
`TrySwitch(3)` the result is `Ok` if the fan-level read succeeds and `Err` otherwise. -/
theorem LV3Handler_Handle_step (k : Kernel σ) (st : Statics) (h : LV3Handler)
    (t : Int) (w : World σ)
    (hclo : INT_MIN ≤ h.escapeTimes) (hchi : h.escapeTimes < INT_MAX) :
    ((h.Handle k st t w).1 = EmHandleRet.Out ↔
        t ≤ h.min ∧ h.escapeTimes + 1 ≥ st.HOLD_TIMES) ∧
      (t ≤ h.min → h.escapeTimes + 1 ≥ st.HOLD_TIMES →
        h.Handle k st t w = (EmHandleRet.Out, { h with escapeTimes := 0 }, w)) ∧
      (t ≤ h.min → h.escapeTimes + 1 < st.HOLD_TIMES →
        h.Handle k st t w =
          (if (k.fanLevelRead w.hw).1.isSome then EmHandleRet.Ok else EmHandleRet.Err,
            { h with escapeTimes := h.escapeTimes + 1 }, (TrySwitch k 3 w).2)) ∧
      (t > h.min →
        h.Handle k st t w =
          (if (k.fanLevelRead w.hw).1.isSome then EmHandleRet.Ok else EmHandleRet.Err,
            h, (TrySwitch k 3 w).2)) := by
  have e := LV3Handler_Handle_eq k st h t w
    (by unfold INT_MIN at *; omega) (by unfold INT_MAX at *; omega)
  refine ⟨?_, ?_, ?_, ?_⟩
  · rw [e]
    by_cases hc : t ≤ h.min ∧ h.escapeTimes + 1 ≥ st.HOLD_TIMES
    · simp [hc]
    · simp only [hc, if_false, iff_false]
      split <;> simp
  · intro h2 h3
    rw [e]; simp [h2, h3]
  · intro h2 h3
    rw [e]; simp [h2, not_le.mpr h3]
  · intro h2
    rw [e]; simp [not_le.mpr h2]

/-- Zone 3 of `main` at counter 59 and `t = 50`: the 60th cool tick exits and resets
the counter, with the world untouched. -/
theorem LV3Handler_Handle_step_witness :
    INT_MIN ≤ 59 ∧ 59 < INT_MAX ∧
      LV3Handler.Handle (simKernel true) mainStatics { min := 50, escapeTimes := 59 }
          50 (simWorld 3 0 [])
        = (EmHandleRet.Out, { min := 50, escapeTimes := 0 }, simWorld 3 0 []) :=
  ⟨by decide, by decide,
    (LV3Handler_Handle_step (simKernel true) mainStatics
      { min := 50, escapeTimes := 59 } 50 (simWorld 3 0 [])
      (by decide) (by decide)).2.1 (by decide) (by decide)⟩

/-! ## `TrySwitch`: failure, and doing nothing when the level is set -/

/-- The four ways through `TrySwitch`, by the answers of the kernel. -/
theorem TrySwitch_eq (k : Kernel σ) (level : Int) (w : World σ) :
    TrySwitch k level w =
      match (k.fanLevelRead w.hw).1 with
      | none =>
        (false, { hw := (k.fanLevelRead w.hw).2,
                  trace := w.trace ++ [Event.fanLevelRead none] })
      | some p =>
        if p = level then
          (true, { hw := (k.fanLevelRead w.hw).2,
                   trace := w.trace ++ [Event.fanLevelRead (some p)] })
        else
          (true, { hw := (k.fanLevelWrite level (k.fanLevelRead w.hw).2).2,
                   trace := w.trace ++
                     [Event.fanLevelRead (some p), Event.cout (Line.switching p level),
                      Event.fanLevelWrite level
                        (k.fanLevelWrite level (k.fanLevelRead w.hw).2).1,
                      Event.cout
                        (if (k.fanLevelWrite level (k.fanLevelRead w.hw).2).1 then Line.done
                         else Line.failed)] }) := by
  simp only [TrySwitch, sysctlFanLevelRead, sysctlFanLevelWrite, World.emit]
  cases (k.fanLevelRead w.hw).1 with
  | none => rfl
  | some p =>
    by_cases hp : p = level
    · simp [hp]
    · simp only [hp, if_false]
      cases (k.fanLevelWrite level (k.fanLevelRead w.hw).2).1 <;> simp

theorem TrySwitch_trace_ne (k : Kernel σ) (level : Int) (w : World σ) :
    (TrySwitch k level w).2 ≠ w := by
  intro he
  have hl : (TrySwitch k level w).2.trace.length = w.trace.length := by rw [he]
  revert hl
  rw [TrySwitch_eq]
  cases (k.fanLevelRead w.hw).1 with
  | none => simp
  | some p =>
    by_cases hp : p = level
    · simp [hp]
    · simp [hp]

/-- Every `Handle` either returns `Out` at once, touching nothing, or is a
`TrySwitch` of some level whose outcome decides between `Ok` and `Err`. -/
theorem Handle_shape (k : Kernel σ) (st : Statics) (hs : Handlers) (h : Ptr)
    (t : Int) (w : World σ) :
    ((Handlers.Handle k st hs h t w).1 = EmHandleRet.Out ∧
        (Handlers.Handle k st hs h t w).2.2 = w) ∨
      (∃ level, (Handlers.Handle k st hs h t w).1 = (switchRet (TrySwitch k level w)).1 ∧
        (Handlers.Handle k st hs h t w).2.2 = (TrySwitch k level w).2) := by
  cases h with
  | h1 =>
    simp only [Handlers.Handle, LV1Handler.Handle]
    split
    · left; exact ⟨rfl, rfl⟩
    · right; exact ⟨1, rfl, rfl⟩
  | h2 =>
    simp only [Handlers.Handle, LV2Handler.Handle]
    split
    · left; exact ⟨rfl, rfl⟩
    · split
      · split
        · left; exact ⟨rfl, rfl⟩
        · right; exact ⟨2, rfl, rfl⟩
      · right; exact ⟨2, rfl, rfl⟩
  | h3 =>
    simp only [Handlers.Handle, LV3Handler.Handle]
    split
    · split
      · left; exact ⟨rfl, rfl⟩
      · right; exact ⟨3, rfl, rfl⟩
    · right; exact ⟨3, rfl, rfl⟩

/-- C7: `TrySwitch(level)` returns `false` iff the read of the fan level fails; after a
read that succeeds with another level and a write that fails it still returns `true`.
So with a succeeding read no `Handle` returns `Err`, whatever the write does, and a
`Handle` returns `Err` exactly when it reached `TrySwitch` (the world changed) and the
read failed. -/
theorem TrySwitch_false_iff_read_fails (k : Kernel σ) (level : Int) (w : World σ) :
    ((TrySwitch k level w).1 = false ↔ (k.fanLevelRead w.hw).1 = none) ∧
      (∀ p, (k.fanLevelRead w.hw).1 = some p → p ≠ level →
        (k.fanLevelWrite level (k.fanLevelRead w.hw).2).1 = false →
        (TrySwitch k level w).1 = true ∧
        (TrySwitch k level w).2.trace = w.trace ++
          [Event.fanLevelRead (some p), Event.cout (Line.switching p level),
           Event.fanLevelWrite level false, Event.cout Line.failed]) ∧
      (∀ (st : Statics) (hs : Handlers) (h : Ptr) (t : Int),
        (k.fanLevelRead w.hw).1 ≠ none →
          (Handlers.Handle k st hs h t w).1 ≠ EmHandleRet.Err) ∧
      (∀ (st : Statics) (hs : Handlers) (h : Ptr) (t : Int),
        (Handlers.Handle k st hs h t w).1 = EmHandleRet.Err ↔
          ((Handlers.Handle k st hs h t w).2.2 ≠ w ∧ (k.fanLevelRead w.hw).1 = none)) := by
  refine ⟨?_, ?_, ?_, ?_⟩
  · rw [TrySwitch_fst]
    cases (k.fanLevelRead w.hw).1 <;> simp
  · intro p hp hne hwr
    refine ⟨by rw [TrySwitch_fst, hp]; rfl, ?_⟩
    rw [TrySwitch_eq]
    simp [hp, hne, hwr]
  · intro st hs h t hr
    rcases Handle_shape k st hs h t w with ⟨ho, _⟩ | ⟨l, hl, _⟩
    · rw [ho]; decide
    · rw [hl, switchRet_TrySwitch_fst, Option.isSome_iff_ne_none.mpr hr]
      decide
  · intro st hs h t
    rcases Handle_shape k st hs h t w with ⟨ho, hw⟩ | ⟨l, hl, hw⟩
    · rw [ho, hw]
      simp
    · rw [hl, hw, switchRet_TrySwitch_fst]
      have := TrySwitch_trace_ne k l w
      cases (k.fanLevelRead w.hw).1 <;> simp [this]

/-- On the simulated machine with level 1 and a failing write ahead, `TrySwitch(2)`
returns `true` and the trace shows the failed write. -/
theorem TrySwitch_false_iff_read_fails_witness :
    (TrySwitch (simKernel true) 2 (simWorld 1 1 [])).1 = true ∧
      (TrySwitch (simKernel true) 2 (simWorld 1 1 [])).2.trace = (simWorld 1 1 []).trace ++
        [Event.fanLevelRead (some 1), Event.cout (Line.switching 1 2),
         Event.fanLevelWrite 2 false, Event.cout Line.failed] :=
  (TrySwitch_false_iff_read_fails (simKernel true) 2 (simWorld 1 1 [])).2.1 1
    (by decide) (by decide) (by decide)

/-- C8, as stated, fails.  On the simulated machine a write that works makes the
reported level the written one; yet with level 1 and one failing write ahead,
`TrySwitch(2)` returns `true`, and the `TrySwitch(2)` right after it writes and prints
again. -/
theorem TrySwitch_twice_counterexample :
    (∀ (s : Sim) (L : Int), ((simKernel true).fanLevelWrite L s).1 = true →
        ((simKernel true).fanLevelRead ((simKernel true).fanLevelWrite L s).2).1 = some L) ∧
      (TrySwitch (simKernel true) 2 (simWorld 1 1 [])).1 = true ∧
      (TrySwitch (simKernel true) 2 (TrySwitch (simKernel true) 2 (simWorld 1 1 [])).2).2.trace =
        (TrySwitch (simKernel true) 2 (simWorld 1 1 [])).2.trace ++
          [Event.fanLevelRead (some 1), Event.cout (Line.switching 1 2),
           Event.fanLevelWrite 2 true, Event.cout Line.done] := by
  refine ⟨?_, by decide, by decide⟩
  intro s L
  simp only [simKernel]
  cases s.failWrites <;> simp

/-- C8, amended: when the level read by `TrySwitch(L)` equals `L`, the call only does
that read (no write, no print) and returns `true`.  Consequently, on a kernel where a
write of `L` that works makes the reported level `L` and a read that reports `L` leaves
it reported, a second `TrySwitch(L)` right after a `TrySwitch(L)` whose read succeeded
and whose write, if any, did not fail only does a read. -/
theorem TrySwitch_idempotent (k : Kernel σ) (L : Int) (w : World σ) :
    ((k.fanLevelRead w.hw).1 = some L →
        TrySwitch k L w =
          (true, { hw := (k.fanLevelRead w.hw).2,
                   trace := w.trace ++ [Event.fanLevelRead (some L)] })) ∧
      ((∀ s, (k.fanLevelWrite L s).1 = true →
            (k.fanLevelRead (k.fanLevelWrite L s).2).1 = some L) →
        (∀ s, (k.fanLevelRead s).1 = some L →
            (k.fanLevelRead (k.fanLevelRead s).2).1 = some L) →
        (TrySwitch k L w).1 = true →
        (∀ p, (k.fanLevelRead w.hw).1 = some p → p ≠ L →
            (k.fanLevelWrite L (k.fanLevelRead w.hw).2).1 = true) →
        TrySwitch k L (TrySwitch k L w).2 =
          (true, { hw := (k.fanLevelRead (TrySwitch k L w).2.hw).2,
                   trace := (TrySwitch k L w).2.trace ++
                     [Event.fanLevelRead (some L)] })) := by
  refine ⟨TrySwitch_same k L w, ?_⟩
  intro hwrite hread hok hnofail
  apply TrySwitch_same
  rw [TrySwitch_fst] at hok
  cases hr : (k.fanLevelRead w.hw).1 with
  | none => rw [hr] at hok; exact absurd hok (by decide)
  | some p =>
    by_cases hp : p = L
    · subst hp
      rw [TrySwitch_same k p w hr]
      exact hread _ hr
    · have hw1 := hnofail p hr hp
      have hw2 := hwrite _ hw1
      rw [TrySwitch_eq]
      simp only [hr, hp, if_false]
      exact hw2

/-- On the simulated machine with level 1 and working writes, the second
`TrySwitch(2)` only reads. -/
theorem TrySwitch_idempotent_witness :
    TrySwitch (simKernel true) 2 (TrySwitch (simKernel true) 2 (simWorld 1 0 [])).2 =
      (true, { hw := ((simKernel true).fanLevelRead
                  (TrySwitch (simKernel true) 2 (simWorld 1 0 [])).2.hw).2,
               trace := (TrySwitch (simKernel true) 2 (simWorld 1 0 [])).2.trace ++
                 [Event.fanLevelRead (some 2)] }) :=
  (TrySwitch_idempotent (simKernel true) 2 (simWorld 1 0 [])).2
    (fun s hs => by
      revert hs
      simp only [simKernel]
      cases s.failWrites <;> simp)
    (fun s hs => hs)
    (by decide)
    (fun _ _ _ => by decide)

/-! ## `FetchThermal`: normalization of the sensor values -/

theorem replace_if_get (p : Int → Bool) (v : Int) (l : List Int) (i : Nat)
    (h : i < l.length) :
    (replace_if p v l).get ⟨i, by rw [replace_if_length]; exact h⟩ =
      if p (l.get ⟨i, h⟩) then v else l.get ⟨i, h⟩ := by
  induction l generalizing i with
  | nil => exact absurd h (Nat.not_lt_zero i)
  | cons x xs ih =>
    cases i with
    | zero => rfl
    | succ j => exact ih j (Nat.lt_of_succ_lt_succ h)

theorem get_congr_list {l1 l2 : List Int} (e : l1 = l2) (i : Nat) (h1 : i < l1.length)
    (h2 : i < l2.length) : l1.get ⟨i, h1⟩ = l2.get ⟨i, h2⟩ := by
  subst e
  rfl

/-- What a successful `FetchThermal` returns: the buffer as the kernel filled it, with
`replace_if` applied. -/
theorem FetchThermal_ok (k : Kernel σ) (thermal : Thermal) (w : World σ)
    (hok : (FetchThermal k thermal w).1 = true) :
    (FetchThermal k thermal w).2.1.1 =
        replace_if isInvalid (-1)
          (sysctlThermalRead k thermal (sysctlThermalLen k w).2).1.2.1 ∧
      (FetchThermal k thermal w).2.2 =
        (sysctlThermalRead k thermal (sysctlThermalLen k w).2).2 := by
  revert hok
  simp only [FetchThermal]
  generalize sysctlThermalLen k w = r
  obtain ⟨o, w1⟩ := r
  cases o with
  | none => simp
  | some n =>
    by_cases hn : n = sizeofThermal
    · simp only [hn, ne_eq, not_true_eq_false, if_false]
      generalize sysctlThermalRead k thermal w1 = q
      obtain ⟨⟨b, buf⟩, w2⟩ := q
      cases b <;> simp
    · simp [hn]

theorem loopBody_of_fetch_ok (k : Kernel σ) (st : Statics) (s : LoopState σ) (h : Ptr)
    (hok : (FetchThermal k s.thermal s.w).1 = true) :
    loopBody k st s h =
      handleTick k st s.hs h (FetchThermal k s.thermal s.w).2.1
        ((FetchThermal k s.thermal s.w).2.1.at 0) (FetchThermal k s.thermal s.w).2.2 := by
  unfold loopBody
  revert hok
  generalize FetchThermal k s.thermal s.w = r
  obtain ⟨b, th, w1⟩ := r
  intro hok
  simp only at hok
  subst hok
  rfl

/-- C10: on a successful `FetchThermal`, whatever eight raw values the kernel delivered,
every element `r >= 255` is replaced by `-1` and every element `r < 255` is left as it
is; so no element of the array is `>= 255`, and the value `cpu = thermal[0]` that the
poll loop passes to `Handle` is below 255: it is the raw value if that is below 255
and `-1` otherwise. -/
theorem FetchThermal_normalizes (k : Kernel σ) (st : Statics) (s : LoopState σ) (h : Ptr)
    (hok : (FetchThermal k s.thermal s.w).1 = true) :
    (∀ i : Fin 8,
        ((sysctlThermalRead k s.thermal (sysctlThermalLen k s.w).2).1.2.at i ≥ 255 →
          (FetchThermal k s.thermal s.w).2.1.at i = -1) ∧
        ((sysctlThermalRead k s.thermal (sysctlThermalLen k s.w).2).1.2.at i < 255 →
          (FetchThermal k s.thermal s.w).2.1.at i =
            (sysctlThermalRead k s.thermal (sysctlThermalLen k s.w).2).1.2.at i)) ∧
      (∀ i : Fin 8, (FetchThermal k s.thermal s.w).2.1.at i < 255) ∧
      (∃ cpu : Int, cpu < 255 ∧ cpu = (FetchThermal k s.thermal s.w).2.1.at 0 ∧
        loopBody k st s h =
          handleTick k st s.hs h (FetchThermal k s.thermal s.w).2.1 cpu
            (FetchThermal k s.thermal s.w).2.2) := by
  have hval : ∀ i : Fin 8, (FetchThermal k s.thermal s.w).2.1.at i =
      if isInvalid ((sysctlThermalRead k s.thermal (sysctlThermalLen k s.w).2).1.2.at i)
      then -1 else (sysctlThermalRead k s.thermal (sysctlThermalLen k s.w).2).1.2.at i := by
    intro i
    have e := (FetchThermal_ok k s.thermal s.w hok).1
    have hi : i.1 < (sysctlThermalRead k s.thermal (sysctlThermalLen k s.w).2).1.2.1.length := by
      rw [(sysctlThermalRead k s.thermal (sysctlThermalLen k s.w).2).1.2.2]; exact i.2
    have g := replace_if_get isInvalid (-1)
      (sysctlThermalRead k s.thermal (sysctlThermalLen k s.w).2).1.2.1 i.1 hi
    unfold Thermal.at
    rw [← g]
    exact get_congr_list e i.1 _ _
  have hlt : ∀ i : Fin 8, (FetchThermal k s.thermal s.w).2.1.at i < 255 := by
    intro i
    rw [hval i]
    unfold isInvalid
    split
    · decide
    · rename_i hni
      simpa using hni
  refine ⟨?_, hlt, ?_⟩
  · intro i
    rw [hval i]
    unfold isInvalid
    constructor
    · intro hge
      simp [hge]
    · intro hl
      simp [not_le.mpr hl]
  · exact ⟨_, hlt 0, rfl, loopBody_of_fetch_ok k st s h hok⟩

/-- On the simulated machine delivering 300 on channel 0, the fetch succeeds and
`thermal[0]` becomes `-1`. -/
theorem FetchThermal_normalizes_witness :
    (FetchThermal (simKernel true)
        (simLoopState (simWorld 1 0 [[300, 20, 255, 254, 0, -5, 1000, 30]])).thermal
        (simLoopState (simWorld 1 0 [[300, 20, 255, 254, 0, -5, 1000, 30]])).w).1 = true ∧
      (sysctlThermalRead (simKernel true)
        (simLoopState (simWorld 1 0 [[300, 20, 255, 254, 0, -5, 1000, 30]])).thermal
        (sysctlThermalLen (simKernel true)
          (simLoopState (simWorld 1 0 [[300, 20, 255, 254, 0, -5, 1000, 30]])).w).2).1.2.at 0
        ≥ 255 ∧
      (FetchThermal (simKernel true)
        (simLoopState (simWorld 1 0 [[300, 20, 255, 254, 0, -5, 1000, 30]])).thermal
        (simLoopState (simWorld 1 0 [[300, 20, 255, 254, 0, -5, 1000, 30]])).w).2.1.at 0
        = -1 :=
  ⟨by decide, by decide,
    ((FetchThermal_normalizes (simKernel true) mainStatics
      (simLoopState (simWorld 1 0 [[300, 20, 255, 254, 0, -5, 1000, 30]])) Ptr.h1
      (by decide)).1 0).1 (by decide)⟩

/-! ## Downward hysteresis of zone 2 -/

theorem LV2Handler_Handle_Out_zero (k : Kernel σ) (st : Statics) (h : LV2Handler)
    (t : Int) (w : World σ) (ho : (h.Handle k st t w).1 = EmHandleRet.Out) :
    (h.Handle k st t w).2.1.escapeTimes = 0 := by
  revert ho
  unfold LV2Handler.Handle
  split
  · intro _; rfl
  · split
    · dsimp only
      split
      · intro _; rfl
      · intro ho
        simp only [switchRet] at ho
        split at ho <;> exact absurd ho (by decide)
    · intro ho
      simp only [switchRet] at ho
      split at ho <;> exact absurd ho (by decide)

/-- One call of `h2.Handle` with the constants of `main`, on an object whose counter is
in `[0, 60)`: the bounds stay, the counter stays in `[0, 60)` and grows by at most one,
and only on a cool reading; a cool reading gives `Out` only from counter 59. -/
theorem LV2Handler_Handle_main_inv (k : Kernel σ) (h : LV2Handler) (t : Int)
    (w : World σ) (hmax : h.max = 50) (hmin : h.min = 40)
    (hc0 : 0 ≤ h.escapeTimes) (hc1 : h.escapeTimes < 60) :
    (h.Handle k mainStatics t w).2.1.max = 50 ∧
      (h.Handle k mainStatics t w).2.1.min = 40 ∧
      0 ≤ (h.Handle k mainStatics t w).2.1.escapeTimes ∧
      (h.Handle k mainStatics t w).2.1.escapeTimes < 60 ∧
      (h.Handle k mainStatics t w).2.1.escapeTimes ≤
        h.escapeTimes + (if t ≤ 40 then 1 else 0) ∧
      ((h.Handle k mainStatics t w).1 = EmHandleRet.Out → t ≤ 40 →
        60 ≤ h.escapeTimes + 1) := by
  have hM : mainStatics.MORE = 5 := rfl
  have hH : mainStatics.HOLD_TIMES = 60 := by decide
  have e := LV2Handler_Handle_eq k mainStatics h t w
    (by rw [hmax, hM]; decide) (by rw [hmax, hM]; decide)
    (by unfold INT_MIN; omega) (by unfold INT_MAX; omega)
  rw [e, hM, hH]
  by_cases h1 : t > h.max + 5
  · simp only [h1, if_true]
    refine ⟨hmax, hmin, le_refl _, by decide, ?_, ?_⟩
    · show (0 : Int) ≤ h.escapeTimes + (if t ≤ 40 then 1 else 0)
      split <;> omega
    · intro _ h2; omega
  · by_cases h2 : t ≤ h.min
    · by_cases h3 : h.escapeTimes + 1 ≥ 60
      · simp only [h1, h2, h3, if_true, if_false, and_self]
        refine ⟨hmax, hmin, le_refl _, by decide, ?_, ?_⟩
        · show (0 : Int) ≤ h.escapeTimes + (if t ≤ 40 then 1 else 0)
          split <;> omega
        · intros
          trivial
      · simp only [h1, h2, h3, if_true, if_false, and_false]
        refine ⟨hmax, hmin, ?_, ?_, ?_, ?_⟩
        · show 0 ≤ h.escapeTimes + 1
          omega
        · show h.escapeTimes + 1 < 60
          omega
        · show h.escapeTimes + 1 ≤ h.escapeTimes + (if t ≤ 40 then 1 else 0)
          rw [if_pos (by omega)]
        · intro ho
          split at ho <;> exact absurd ho (by decide)
    · simp only [h1, h2, if_false, false_and]
      refine ⟨hmax, hmin, hc0, hc1, ?_, ?_⟩
      · show h.escapeTimes ≤ h.escapeTimes + (if t ≤ 40 then 1 else 0)
        split <;> omega
      · intro _ h4; omega

/-- Feeding zone 2 from a counter `c` in `[0, 60)`: an `Out` on a cool reading at tick
`n` needs `c` plus the number of cool readings up to tick `n` to reach 60. -/
theorem LV2Handler_feed_cool_count (k : Kernel σ) (ts : List Int) :
    ∀ (h : LV2Handler) (w : World σ) (n : Nat) (t : Int),
      h.max = 50 → h.min = 40 → 0 ≤ h.escapeTimes → h.escapeTimes < 60 →
      (LV2Handler.feed k mainStatics h ts w).1[n]? = some EmHandleRet.Out →
      ts[n]? = some t → t ≤ 40 →
      60 ≤ h.escapeTimes + ((ts.take (n + 1)).countP (fun x => decide (x ≤ 40)) : Nat) := by
  induction ts with
  | nil =>
    intro h w n t _ _ _ _ _ ht _
    simp at ht
  | cons t0 ts ih =>
    intro h w n t hmax hmin hc0 hc1 hout ht hcool
    obtain ⟨i1, i2, i3, i4, i5, i6⟩ := LV2Handler_Handle_main_inv k h t0 w hmax hmin hc0 hc1
    cases n with
    | zero =>
      simp only [LV2Handler.feed, List.getElem?_cons_zero, Option.some.injEq] at hout ht
      subst ht
      have := i6 hout hcool
      simp only [zero_add, List.take_succ_cons, List.take_zero, List.countP_cons,
        List.countP_nil, hcool, decide_True, if_true]
      omega
    | succ m =>
      simp only [LV2Handler.feed, List.getElem?_cons_succ] at hout ht
      have := ih _ _ m t i1 i2 i3 i4 hout ht hcool
      simp only [List.take_succ_cons, List.countP_cons]
      by_cases hc : t0 ≤ 40
      · simp only [hc, if_true] at i5
        simp only [hc, decide_True, if_true]
        push_cast
        omega
      · simp only [hc, if_false] at i5
        simp only [hc, decide_False]
        simp only [Bool.false_eq_true, if_false]
        omega

/-- C1, as stated, fails: with the constants of `main` and every fan-level read
succeeding, feed zone 2 the temperature 39 for 59 ticks, then 41, then 39.  The last
call (tick index 60) returns `Out` on `39 <= min`, although the tick before it, one of
the 60 most recent, had `41 > min`: the reading above `min` did not restart the count. -/
theorem LV2Handler_consecutive_hold_counterexample :
    (LV2Handler.feed (simKernel true) mainStatics mainHandlers.h2
        (List.replicate 59 39 ++ [41, 39]) (simWorld 2 0 [])).1[60]?
        = some EmHandleRet.Out ∧
      (List.replicate 59 (39 : Int) ++ [41, 39])[60]? = some 39 ∧
      (39 : Int) ≤ mainHandlers.h2.min ∧
      (List.replicate 59 (39 : Int) ++ [41, 39])[59]? = some 41 ∧
      ¬ ((41 : Int) ≤ mainHandlers.h2.min) := by
  set_option maxRecDepth 100000 in decide

/-- Feeding zone 2 from a counter in `[0, 60)`: between a tick `m` that returned `Out`
and a later tick `n` that returns `Out` on a cool reading lie at least 60 cool readings
(those of the ticks after `m` up to and including `n`). -/
theorem LV2Handler_feed_cool_count_since (k : Kernel σ) (ts : List Int) :
    ∀ (h : LV2Handler) (w : World σ) (n m : Nat) (t : Int),
      h.max = 50 → h.min = 40 → 0 ≤ h.escapeTimes → h.escapeTimes < 60 →
      (LV2Handler.feed k mainStatics h ts w).1[n]? = some EmHandleRet.Out →
      ts[n]? = some t → t ≤ 40 → m < n →
      (LV2Handler.feed k mainStatics h ts w).1[m]? = some EmHandleRet.Out →
      60 ≤ (((ts.take (n + 1)).drop (m + 1)).countP (fun x => decide (x ≤ 40)) : Nat) := by
  induction ts with
  | nil =>
    intro h w n m t _ _ _ _ _ ht _ _ _
    simp at ht
  | cons t0 ts ih =>
    intro h w n m t hmax hmin hc0 hc1 hout ht hcool hmn hprev
    obtain ⟨i1, i2, i3, i4, _, _⟩ := LV2Handler_Handle_main_inv k h t0 w hmax hmin hc0 hc1
    cases n with
    | zero => exact absurd hmn (Nat.not_lt_zero m)
    | succ n' =>
      simp only [LV2Handler.feed, List.getElem?_cons_succ] at hout ht
      cases m with
      | zero =>
        simp only [LV2Handler.feed, List.getElem?_cons_zero, Option.some.injEq] at hprev
        have hz := LV2Handler_Handle_Out_zero k mainStatics h t0 w hprev
        have := LV2Handler_feed_cool_count k ts _ _ n' t i1 i2 i3 i4 hout ht hcool
        rw [hz] at this
        simp only [List.take_succ_cons, zero_add, List.drop_succ_cons, List.drop_zero]
        omega
      | succ m' =>
        simp only [LV2Handler.feed, List.getElem?_cons_succ] at hprev
        have := ih _ _ n' m' t i1 i2 i3 i4 hout ht hcool (Nat.lt_of_succ_lt_succ hmn) hprev
        simp only [List.take_succ_cons, List.drop_succ_cons]
        exact this

/-- C1, amended: with the constants of `main`, feeding zone 2 from counter 0, a call
returns `Out` on a reading `t <= min` at tick `n` only if at least `HOLD_TIMES = 60`
ticks with `t <= min` have occurred since the last tick at which `Handle` returned
`Out` (through either exit), or since the start if there was none, up to and including
`n`: the count restarts at every `Out`.  These ticks need not be consecutive, since a
reading in `(min, max + MORE]` leaves the counter as it is. -/
theorem LV2Handler_cooling_exit_needs_hold (k : Kernel σ) (w : World σ)
    (ts : List Int) (n : Nat) (t : Int)
    (hout : (LV2Handler.feed k mainStatics mainHandlers.h2 ts w).1[n]?
      = some EmHandleRet.Out)
    (ht : ts[n]? = some t) (hcool : t ≤ mainHandlers.h2.min) :
    (mainStatics.HOLD_TIMES ≤
        ((ts.take (n + 1)).countP (fun x => decide (x ≤ mainHandlers.h2.min)) : Nat)) ∧
      (∀ m : Nat, m < n →
        (LV2Handler.feed k mainStatics mainHandlers.h2 ts w).1[m]? = some EmHandleRet.Out →
        mainStatics.HOLD_TIMES ≤
          (((ts.take (n + 1)).drop (m + 1)).countP
            (fun x => decide (x ≤ mainHandlers.h2.min)) : Nat)) ∧
      (∀ (c t' : Int) (w' : World σ), mainHandlers.h2.min < t' →
        t' ≤ mainHandlers.h2.max + mainStatics.MORE →
        ((LV2Handler.Handle k mainStatics { mainHandlers.h2 with escapeTimes := c }
            t' w').2.1).escapeTimes = c) := by
  have hH : mainStatics.HOLD_TIMES = 60 := by decide
  refine ⟨?_, ?_, ?_⟩
  · have := LV2Handler_feed_cool_count k ts mainHandlers.h2 w n t rfl rfl
      (by decide) (by decide) hout ht hcool
    rw [hH]
    simpa [mainHandlers] using this
  · intro m hmn hprev
    have := LV2Handler_feed_cool_count_since k ts mainHandlers.h2 w n m t rfl rfl
      (by decide) (by decide) hout ht hcool hmn hprev
    rw [hH]
    simpa [mainHandlers] using this
  · intro c t' w' h1 h2
    have e1 : wrapInt (mainHandlers.h2.max + mainStatics.MORE) = 55 := by decide
    have e2 : mainHandlers.h2.min = 40 := rfl
    have e3 : mainHandlers.h2.max + mainStatics.MORE = 55 := by decide
    rw [e2] at h1
    rw [e3] at h2
    simp only [LV2Handler.Handle, mainHandlers]
    have e1' : wrapInt (50 + mainStatics.MORE) = 55 := e1
    rw [e1']
    rw [if_neg (by omega), if_neg (by omega)]

/-- The run 39, 56, 39 (60 times): the call at tick index 1 returns `Out` upwards, and
the next `Out`, on the cool reading at tick index 61, comes with 60 cool readings after
tick 1; the cool reading at tick 0 is not among them. -/
theorem LV2Handler_cooling_exit_needs_hold_witness :
    (LV2Handler.feed (simKernel true) mainStatics mainHandlers.h2
        ([39, 56] ++ List.replicate 60 39) (simWorld 2 0 [])).1[61]?
        = some EmHandleRet.Out ∧
      (([39, 56] : List Int) ++ List.replicate 60 39)[61]? = some 39 ∧
      (39 : Int) ≤ mainHandlers.h2.min ∧
      (LV2Handler.feed (simKernel true) mainStatics mainHandlers.h2
        ([39, 56] ++ List.replicate 60 39) (simWorld 2 0 [])).1[1]?
        = some EmHandleRet.Out ∧
      mainStatics.HOLD_TIMES ≤
        ((((([39, 56] : List Int) ++ List.replicate 60 39).take (61 + 1)).drop
          (1 + 1)).countP (fun x => decide (x ≤ mainHandlers.h2.min)) : Nat) :=
  ⟨by set_option maxRecDepth 100000 in decide, by decide, by decide,
    by decide,
    (LV2Handler_cooling_exit_needs_hold (simKernel true) (simWorld 2 0 [])
      ([39, 56] ++ List.replicate 60 39) 61 39
      (by set_option maxRecDepth 100000 in decide) (by decide) (by decide)).2.1 1
      (by decide) (by decide)⟩

/-! ## The body of the poll loop, case by case -/

theorem FnPickHandler_eq (hs : Handlers) (t : Int) :
    FnPickHandler hs t =
      if hs.h1.InRange t = true then some Ptr.h1
      else if hs.h2.InRange t = true then some Ptr.h2
      else if hs.h3.InRange t = true then some Ptr.h3
      else none := by
  unfold FnPickHandler handlers
  simp only [List.find?, Handlers.InRange]
  cases hs.h1.InRange t <;> cases hs.h2.InRange t <;> cases hs.h3.InRange t <;> rfl

theorem FnPickHandler_some_InRange (hs : Handlers) (t : Int) (z : Ptr)
    (h : FnPickHandler hs t = some z) : hs.InRange z t = true := by
  rw [FnPickHandler_eq] at h
  cases z <;> simp only [Handlers.InRange] <;> split_ifs at h <;> simp_all

theorem handleTick_Out (k : Kernel σ) (st : Statics) (hs : Handlers) (h : Ptr)
    (thermal : Thermal) (cpu : Int) (w : World σ)
    (ho : (Handlers.Handle k st hs h cpu w).1 = EmHandleRet.Out) :
    handleTick k st hs h thermal cpu w =
      if FnPickHandler (Handlers.Handle k st hs h cpu w).2.1 cpu ≠ some h then
        (false, { thermal := thermal, hs := (Handlers.Handle k st hs h cpu w).2.1,
                  h := FnPickHandler (Handlers.Handle k st hs h cpu w).2.1 cpu,
                  w := (Handlers.Handle k st hs h cpu w).2.2 })
      else
        (false, { thermal := thermal, hs := (Handlers.Handle k st hs h cpu w).2.1,
                  h := some h,
                  w := (Handlers.Handle k st hs h cpu w).2.2.emit
                    (Event.usleep (tick * 1000)) }) := by
  unfold handleTick
  revert ho
  generalize Handlers.Handle k st hs h cpu w = r
  obtain ⟨ret, hs1, w1⟩ := r
  intro ho
  simp only at ho
  subst ho
  rfl

theorem handleTick_Ok (k : Kernel σ) (st : Statics) (hs : Handlers) (h : Ptr)
    (thermal : Thermal) (cpu : Int) (w : World σ)
    (ho : (Handlers.Handle k st hs h cpu w).1 = EmHandleRet.Ok) :
    handleTick k st hs h thermal cpu w =
      (false, { thermal := thermal, hs := (Handlers.Handle k st hs h cpu w).2.1,
                h := some h,
                w := (Handlers.Handle k st hs h cpu w).2.2.emit
                  (Event.usleep (tick * 1000)) }) := by
  unfold handleTick
  revert ho
  generalize Handlers.Handle k st hs h cpu w = r
  obtain ⟨ret, hs1, w1⟩ := r
  intro ho
  simp only at ho
  subst ho
  rfl

theorem handleTick_Err (k : Kernel σ) (st : Statics) (hs : Handlers) (h : Ptr)
    (thermal : Thermal) (cpu : Int) (w : World σ)
    (ho : (Handlers.Handle k st hs h cpu w).1 = EmHandleRet.Err) :
    handleTick k st hs h thermal cpu w =
      (false, { thermal := thermal, hs := (Handlers.Handle k st hs h cpu w).2.1,
                h := none, w := (Handlers.Handle k st hs h cpu w).2.2 }) := by
  unfold handleTick
  revert ho
  generalize Handlers.Handle k st hs h cpu w = r
  obtain ⟨ret, hs1, w1⟩ := r
  intro ho
  simp only at ho
  subst ho
  rfl

theorem handleTick_fst (k : Kernel σ) (st : Statics) (hs : Handlers) (h : Ptr)
    (thermal : Thermal) (cpu : Int) (w : World σ) :
    (handleTick k st hs h thermal cpu w).1 = false := by
  cases ho : (Handlers.Handle k st hs h cpu w).1 with
  | Ok => rw [handleTick_Ok k st hs h thermal cpu w ho]
  | Err => rw [handleTick_Err k st hs h thermal cpu w ho]
  | Out =>
    rw [handleTick_Out k st hs h thermal cpu w ho]
    split <;> rfl

theorem loopBody_of_fetch_fail (k : Kernel σ) (st : Statics) (s : LoopState σ) (h : Ptr)
    (hf : (FetchThermal k s.thermal s.w).1 = false) :
    loopBody k st s h =
      (true, { s with thermal := (FetchThermal k s.thermal s.w).2.1,
                      w := (FetchThermal k s.thermal s.w).2.2 }) := by
  unfold loopBody
  revert hf
  generalize FetchThermal k s.thermal s.w = r
  obtain ⟨b, th, w1⟩ := r
  intro hf
  simp only at hf
  subst hf
  rfl

/-- The poll loop with one more pass of fuel, on a state with `h` non-null. -/
theorem pollLoop_succ (k : Kernel σ) (st : Statics) (fuel : Nat) (s : LoopState σ)
    (h : Ptr) (hs : s.h = some h) :
    pollLoop k st (fuel + 1) s =
      if (loopBody k st s h).1 = true then some (loopBody k st s h).2
      else pollLoop k st fuel (loopBody k st s h).2 := by
  rw [pollLoop]
  simp only [hs]
  generalize loopBody k st s h = r
  obtain ⟨b, s1⟩ := r
  cases b <;> simp

theorem pollLoop_null (k : Kernel σ) (st : Statics) (fuel : Nat) (s : LoopState σ)
    (hs : s.h = none) : pollLoop k st fuel s = some s := by
  cases fuel <;> simp [pollLoop, hs]

/-! ## Termination of the poll loop -/

theorem FetchThermal_trace (k : Kernel σ) (thermal : Thermal) (w : World σ) :
    ∃ evs, (FetchThermal k thermal w).2.2.trace = w.trace ++ evs ∧
      ∀ e ∈ evs, e.isSensor = true := by
  simp only [FetchThermal, sysctlThermalLen, sysctlThermalRead]
  cases (k.thermalLen w.hw).1 with
  | none => exact ⟨[Event.thermalLen none], rfl, by simp [Event.isSensor]⟩
  | some n =>
    by_cases hn : n = sizeofThermal
    · simp only [hn, ne_eq, not_true_eq_false, if_false]
      cases hb : (k.thermalRead thermal.1 (k.thermalLen w.hw).2).1.1 with
      | false =>
        exact ⟨[Event.thermalLen (some sizeofThermal), Event.thermalRead false],
          by simp, by simp [Event.isSensor]⟩
      | true =>
        exact ⟨[Event.thermalLen (some sizeofThermal), Event.thermalRead true],
          by simp, by simp [Event.isSensor]⟩
    · simp only [ne_eq, hn, not_false_eq_true, if_true]
      exact ⟨[Event.thermalLen (some n)], rfl, by simp [Event.isSensor]⟩

theorem loopBody_of_fetched_ok (k : Kernel σ) (st : Statics) (s : LoopState σ) (z : Ptr)
    (hok : (fetched k s).1 = true) :
    loopBody k st s z =
      handleTick k st s.hs z (fetched k s).2.1 ((fetched k s).2.1.at 0) (fetched k s).2.2 :=
  loopBody_of_fetch_ok k st s z hok

/-- What a pass does after a fetch that worked, by the result of `Handle`. -/
theorem loopBody_cases (k : Kernel σ) (st : Statics) (s : LoopState σ) (z : Ptr)
    (hok : (fetched k s).1 = true) :
    ((handled k st s z).1 = EmHandleRet.Ok →
        loopBody k st s z =
          (false, { thermal := (fetched k s).2.1, hs := (handled k st s z).2.1,
                    h := some z,
                    w := (handled k st s z).2.2.emit (Event.usleep (tick * 1000)) })) ∧
      ((handled k st s z).1 = EmHandleRet.Err →
        loopBody k st s z =
          (false, { thermal := (fetched k s).2.1, hs := (handled k st s z).2.1,
                    h := none, w := (handled k st s z).2.2 })) ∧
      ((handled k st s z).1 = EmHandleRet.Out →
        FnPickHandler (handled k st s z).2.1 ((fetched k s).2.1.at 0) ≠ some z →
        loopBody k st s z =
          (false, { thermal := (fetched k s).2.1, hs := (handled k st s z).2.1,
                    h := FnPickHandler (handled k st s z).2.1 ((fetched k s).2.1.at 0),
                    w := (handled k st s z).2.2 })) ∧
      ((handled k st s z).1 = EmHandleRet.Out →
        FnPickHandler (handled k st s z).2.1 ((fetched k s).2.1.at 0) = some z →
        loopBody k st s z =
          (false, { thermal := (fetched k s).2.1, hs := (handled k st s z).2.1,
                    h := some z,
                    w := (handled k st s z).2.2.emit (Event.usleep (tick * 1000)) })) := by
  rw [loopBody_of_fetched_ok k st s z hok]
  refine ⟨?_, ?_, ?_, ?_⟩
  · intro h
    exact handleTick_Ok k st s.hs z _ _ _ h
  · intro h
    exact handleTick_Err k st s.hs z _ _ _ h
  · intro h hne
    rw [handleTick_Out k st s.hs z _ _ _ h]
    exact if_pos hne
  · intro h he
    rw [handleTick_Out k st s.hs z _ _ _ h]
    exact if_neg (not_not.mpr he)

/-- C11: a pass of the poll loop from a running state (`h` non-null) ends the loop
(through `break`, or by leaving `h` null) iff (a) the fetch of the temperatures fails,
or (b) `Handle` returns `Err`, or (c) `Handle` returns `Out` and the selector returns
`nullptr` for that temperature.  In case (a) the pass only reads the sensors and
leaves the handlers as they were.  When the pass ends the loop, the loop returns the
state of that pass as it is; otherwise `h` is non-null and the loop goes round again. -/
theorem pollLoop_termination_classified (k : Kernel σ) (st : Statics) (s : LoopState σ)
    (z : Ptr) (hrun : s.h = some z) :
    (((loopBody k st s z).1 = true ∨ (loopBody k st s z).2.h = none) ↔
        ((fetched k s).1 = false ∨
          ((fetched k s).1 = true ∧ (handled k st s z).1 = EmHandleRet.Err) ∨
          ((fetched k s).1 = true ∧ (handled k st s z).1 = EmHandleRet.Out ∧
            FnPickHandler (handled k st s z).2.1 ((fetched k s).2.1.at 0) = none))) ∧
      ((fetched k s).1 = false →
        loopBody k st s z =
          (true, { s with thermal := (fetched k s).2.1, w := (fetched k s).2.2 }) ∧
        ∃ evs, (loopBody k st s z).2.w.trace = s.w.trace ++ evs ∧
          ∀ e ∈ evs, e.isSensor = true) ∧
      (((loopBody k st s z).1 = true ∨ (loopBody k st s z).2.h = none) →
        ∀ fuel, pollLoop k st (fuel + 1) s = some (loopBody k st s z).2) ∧
      (¬ ((loopBody k st s z).1 = true ∨ (loopBody k st s z).2.h = none) →
        (∃ z', (loopBody k st s z).2.h = some z') ∧
        ∀ fuel, pollLoop k st (fuel + 1) s = pollLoop k st fuel (loopBody k st s z).2) := by
  refine ⟨?_, ?_, ?_, ?_⟩
  · cases hf : (fetched k s).1 with
    | false =>
      have e := loopBody_of_fetch_fail k st s z hf
      rw [e]
      simp
    | true =>
      obtain ⟨c1, c2, c3, c4⟩ := loopBody_cases k st s z hf
      cases ho : (handled k st s z).1 with
      | Ok => rw [c1 ho]; simp
      | Err => rw [c2 ho]; simp
      | Out =>
        by_cases hp : FnPickHandler (handled k st s z).2.1 ((fetched k s).2.1.at 0) = some z
        · rw [c4 ho hp]; simp [hp]
        · rw [c3 ho hp]; simp
  · intro hf
    have e := loopBody_of_fetch_fail k st s z hf
    refine ⟨e, ?_⟩
    rw [e]
    exact FetchThermal_trace k s.thermal s.w
  · intro ht fuel
    rw [pollLoop_succ k st fuel s z hrun]
    rcases ht with ht | ht
    · rw [if_pos ht]
    · by_cases hb : (loopBody k st s z).1 = true
      · rw [if_pos hb]
      · rw [if_neg hb]
        exact pollLoop_null k st fuel _ ht
  · intro hn
    push_neg at hn
    refine ⟨Option.ne_none_iff_exists'.mp hn.2, ?_⟩
    intro fuel
    rw [pollLoop_succ k st fuel s z hrun, if_neg hn.1]

/-- At `s = simLoopState` with no sensor reading left, the fetch fails and the pass
ends the loop. -/
theorem pollLoop_termination_classified_witness :
    (simLoopState (simWorld 1 0 [])).h = some Ptr.h1 ∧
      (fetched (simKernel true) (simLoopState (simWorld 1 0 []))).1 = false ∧
      ((loopBody (simKernel true) mainStatics (simLoopState (simWorld 1 0 [])) Ptr.h1).1
          = true ∨
        (loopBody (simKernel true) mainStatics (simLoopState (simWorld 1 0 [])) Ptr.h1).2.h
          = none) :=
  ⟨by decide, by decide,
    (pollLoop_termination_classified (simKernel true) mainStatics
      (simLoopState (simWorld 1 0 [])) Ptr.h1 (by decide)).1.mpr (Or.inl (by decide))⟩

/-! ## What the loop does on `Out` -/

/-- C12, as stated, fails.  On the simulated machine with the readings 55 and then 30,
zone 1 returns `Out` on 55 and the selector gives zone 3; the loop then fetches again
and calls zone 3 on the new reading 30 (its counter becomes 1), not on 55 (which would
leave the counter 0): the trace shows two sensor reads before the first fan-level
access, and no `usleep` between them. -/
theorem exit_reuses_reading_counterexample :
    (handled (simKernel true) mainStatics
        (simLoopState (simWorld 1 0 [[55, 0, 0, 0, 0, 0, 0, 0], [30, 0, 0, 0, 0, 0, 0, 0]]))
        Ptr.h1).1 = EmHandleRet.Out ∧
      FnPickHandler mainHandlers 55 = some Ptr.h3 ∧
      (LV3Handler.Handle (simKernel true) mainStatics mainHandlers.h3 55
        (simWorld 1 0 [])).2.1.escapeTimes = 0 ∧
      (passes (simKernel true) mainStatics 2
        (simLoopState (simWorld 1 0 [[55, 0, 0, 0, 0, 0, 0, 0], [30, 0, 0, 0, 0, 0, 0, 0]]))).map
        (fun s => (s.h, s.hs.h3.escapeTimes, s.w.trace)) =
        some (some Ptr.h3, 1,
          [Event.thermalLen (some 32), Event.thermalRead true,
           Event.thermalLen (some 32), Event.thermalRead true,
           Event.fanLevelRead (some 1), Event.cout (Line.switching 1 3),
           Event.fanLevelWrite 3 true, Event.cout Line.done, Event.usleep 500000]) := by
  decide

/-- C12, amended: when `Handle` returns `Out` and the selector returns a zone `z'`
other than the active one, the pass makes `z'` active and ends without `usleep` (the
world is the one `Handle` left); the loop goes round again at once, and the next pass
begins with a new `FetchThermal`: if that fails the loop is left through `break`
without a call of `z'`'s `Handle`, and if it works `z'`'s `Handle` is called on
`thermal[0]` of the newly fetched array.  When the selector returns the same zone,
the pass calls `usleep` and keeps the zone. -/
theorem exit_switch_refetches (k : Kernel σ) (st : Statics) (s : LoopState σ) (z : Ptr)
    (hrun : s.h = some z) (hok : (fetched k s).1 = true)
    (hout : (handled k st s z).1 = EmHandleRet.Out) :
    (∀ (z' : Ptr) (s1 : LoopState σ),
        FnPickHandler (handled k st s z).2.1 ((fetched k s).2.1.at 0) = some z' → z' ≠ z →
        s1 = { thermal := (fetched k s).2.1, hs := (handled k st s z).2.1, h := some z',
               w := (handled k st s z).2.2 } →
        loopBody k st s z = (false, s1) ∧
        (∀ fuel, pollLoop k st (fuel + 1) s = pollLoop k st fuel s1) ∧
        ((fetched k s1).1 = false →
          loopBody k st s1 z' =
            (true, { s1 with thermal := (fetched k s1).2.1, w := (fetched k s1).2.2 })) ∧
        ((fetched k s1).1 = true →
          loopBody k st s1 z' =
            handleTick k st s1.hs z' (fetched k s1).2.1 ((fetched k s1).2.1.at 0)
              (fetched k s1).2.2)) ∧
      (FnPickHandler (handled k st s z).2.1 ((fetched k s).2.1.at 0) = some z →
        loopBody k st s z =
          (false, { thermal := (fetched k s).2.1, hs := (handled k st s z).2.1,
                    h := some z,
                    w := (handled k st s z).2.2.emit (Event.usleep (tick * 1000)) })) := by
  obtain ⟨_, _, c3, c4⟩ := loopBody_cases k st s z hok
  refine ⟨?_, c4 hout⟩
  intro z' s1 hp hne hs1
  have hp' : FnPickHandler (handled k st s z).2.1 ((fetched k s).2.1.at 0) ≠ some z := by
    rw [hp]
    intro he
    exact hne (Option.some.inj he)
  have e := c3 hout hp'
  rw [hp] at e
  rw [← hs1] at e
  refine ⟨e, ?_, ?_, ?_⟩
  · intro fuel
    rw [pollLoop_succ k st fuel s z hrun, e]
    simp
  · intro hf
    exact loopBody_of_fetch_fail k st s1 z' hf
  · intro hf
    exact loopBody_of_fetched_ok k st s1 z' hf

/-- On the simulated machine with the readings 55 and then 30: zone 1 exits on 55,
zone 3 becomes active without a sleep, and the next pass fetches anew. -/
theorem exit_switch_refetches_witness :
    loopBody (simKernel true) mainStatics
        (simLoopState (simWorld 1 0 [[55, 0, 0, 0, 0, 0, 0, 0], [30, 0, 0, 0, 0, 0, 0, 0]]))
        Ptr.h1 =
      (false,
        { thermal := (fetched (simKernel true) (simLoopState
            (simWorld 1 0 [[55, 0, 0, 0, 0, 0, 0, 0], [30, 0, 0, 0, 0, 0, 0, 0]]))).2.1,
          hs := (handled (simKernel true) mainStatics (simLoopState
            (simWorld 1 0 [[55, 0, 0, 0, 0, 0, 0, 0], [30, 0, 0, 0, 0, 0, 0, 0]])) Ptr.h1).2.1,
          h := some Ptr.h3,
          w := (handled (simKernel true) mainStatics (simLoopState
            (simWorld 1 0 [[55, 0, 0, 0, 0, 0, 0, 0], [30, 0, 0, 0, 0, 0, 0, 0]])) Ptr.h1).2.2 }) :=
  ((exit_switch_refetches (simKernel true) mainStatics
      (simLoopState (simWorld 1 0 [[55, 0, 0, 0, 0, 0, 0, 0], [30, 0, 0, 0, 0, 0, 0, 0]]))
      Ptr.h1 (by decide) (by decide) (by decide)).1 Ptr.h3 _ (by decide) (by decide) rfl).1

/-! ## `main` around the poll loop -/

/-- The part of `main` after the loop, by the answer to the last write. -/
theorem recover_eq (k : Kernel σ) (s : LoopState σ) :
    recover k s =
      if (k.fanWrite 1 s.w.hw).1 = true then
        (0, { hw := (k.fanWrite 1 s.w.hw).2,
              trace := s.w.trace ++ [Event.cout Line.finish, Event.fanWrite 1 true,
                                     Event.cout Line.recovered] })
      else
        (1, { hw := (k.fanWrite 1 s.w.hw).2,
              trace := s.w.trace ++ [Event.cout Line.finish, Event.fanWrite 1 false] }) := by
  simp only [recover, sysctlFanWrite, World.emit]
  cases (k.fanWrite 1 s.w.hw).1 <;> simp

/-- The function `main` in parts: the three ways to fail at startup, and otherwise the
poll loop from `bootState` followed by `recover`. -/
theorem main_eq (k : Kernel σ) (fuel : Nat) (thermal0 : Thermal) (hw0 : σ) :
    main k fuel thermal0 hw0 =
      if (k.setpriority nice hw0).1 = false then
        some (1, { hw := (k.setpriority nice hw0).2,
                   trace := [Event.setpriority nice false, Event.cout Line.reniceFailed] })
      else if (k.fanLevelWrite 1 (k.setpriority nice hw0).2).1 = false then
        some (1, { hw := (k.fanLevelWrite 1 (k.setpriority nice hw0).2).2,
                   trace := [Event.setpriority nice true, Event.fanLevelWrite 1 false,
                             Event.cout Line.manualFailed] })
      else if (k.fanWrite 0 (k.fanLevelWrite 1 (k.setpriority nice hw0).2).2).1 = false then
        some (1, { hw := (k.fanWrite 0 (k.fanLevelWrite 1 (k.setpriority nice hw0).2).2).2,
                   trace := [Event.setpriority nice true, Event.fanLevelWrite 1 true,
                             Event.fanWrite 0 false, Event.cout Line.manualFailed] })
      else
        (pollLoop k mainStatics fuel (bootState k thermal0 hw0)).map (recover k) := by
  simp only [main, bootState, sysctlFanLevelWrite, sysctlFanWrite, World.emit, recover]
  cases h1 : (k.setpriority nice hw0).1 with
  | false => simp
  | true =>
    cases h2 : (k.fanLevelWrite 1 (k.setpriority nice hw0).2).1 with
    | false => simp [h2]
    | true =>
      cases h3 : (k.fanWrite 0 (k.fanLevelWrite 1 (k.setpriority nice hw0).2).2).1 with
      | false => simp [h2, h3]
      | true =>
        simp only [h2, h3, Bool.true_eq_false, if_false, List.nil_append, List.cons_append,
          List.singleton_append]
        split
        · rename_i hp
          rw [hp]
          rfl
        · rename_i s hp
          rw [hp]
          simp only [Option.map_some']
          rw [recover_eq]
          cases (k.fanWrite 1 s.w.hw).1 <;> simp

theorem startupOk_iff (k : Kernel σ) (hw0 : σ) :
    startupOk k hw0 = true ↔
      (k.setpriority nice hw0).1 = true ∧
      (k.fanLevelWrite 1 (k.setpriority nice hw0).2).1 = true ∧
      (k.fanWrite 0 (k.fanLevelWrite 1 (k.setpriority nice hw0).2).2).1 = true := by
  simp [startupOk, and_assoc]

theorem main_of_startupOk (k : Kernel σ) (fuel : Nat) (thermal0 : Thermal) (hw0 : σ)
    (h : startupOk k hw0 = true) :
    main k fuel thermal0 hw0 =
      (pollLoop k mainStatics fuel (bootState k thermal0 hw0)).map (recover k) := by
  obtain ⟨h1, h2, h3⟩ := (startupOk_iff k hw0).mp h
  rw [main_eq]
  simp [h1, h2, h3]

theorem bootState_trace (k : Kernel σ) (thermal0 : Thermal) (hw0 : σ)
    (h : startupOk k hw0 = true) :
    (bootState k thermal0 hw0).w.trace =
      [Event.setpriority nice true, Event.fanLevelWrite 1 true, Event.fanWrite 0 true,
       Event.cout Line.begin] := by
  obtain ⟨h1, h2, h3⟩ := (startupOk_iff k hw0).mp h
  simp [bootState, sysctlFanLevelWrite, sysctlFanWrite, World.emit, h1, h2, h3]

/-- C16: the seed zone is `FnPickHandler(10)`, which is zone 1 for the thresholds of
`main`, whatever the kernel and the sensors say.  When startup succeeds, `main` is the
poll loop run from `bootState` followed by the recovery; in `bootState` the active zone
is zone 1, the handlers are fresh, and all that has happened is `setpriority`, the
write of fan level 1, the write that turns automatic mode off, and the `begin` line. -/
theorem boot_in_zone1 (k : Kernel σ) (fuel : Nat) (thermal0 : Thermal) (hw0 : σ) :
    FnPickHandler mainHandlers 10 = some Ptr.h1 ∧
      (bootState k thermal0 hw0).h = some Ptr.h1 ∧
      (bootState k thermal0 hw0).hs = mainHandlers ∧
      (startupOk k hw0 = true →
        main k fuel thermal0 hw0 =
          (pollLoop k mainStatics fuel (bootState k thermal0 hw0)).map (recover k) ∧
        (bootState k thermal0 hw0).w.trace =
          [Event.setpriority nice true, Event.fanLevelWrite 1 true, Event.fanWrite 0 true,
           Event.cout Line.begin]) := by
  refine ⟨by decide, ?_, rfl, ?_⟩
  · show FnPickHandler mainHandlers 10 = some Ptr.h1
    decide
  · intro h
    exact ⟨main_of_startupOk k fuel thermal0 hw0 h, bootState_trace k thermal0 hw0 h⟩

/-- On the simulated machine startup succeeds and the loop starts in zone 1 after the
write of fan level 1. -/
theorem boot_in_zone1_witness :
    startupOk (simKernel true) (simWorld 3 0 []).hw = true ∧
      (bootState (simKernel true) (simLoopState (simWorld 3 0 [])).thermal
        (simWorld 3 0 []).hw).w.trace =
        [Event.setpriority nice true, Event.fanLevelWrite 1 true, Event.fanWrite 0 true,
         Event.cout Line.begin] :=
  ⟨by decide,
    ((boot_in_zone1 (simKernel true) 1 (simLoopState (simWorld 3 0 [])).thermal
      (simWorld 3 0 []).hw).2.2.2 (by decide)).2⟩

/-! ## The trace of the poll loop and of `main` -/

theorem LoopExt.refl (w : World σ) : LoopExt w w :=
  ⟨[], by simp, by simp⟩

theorem LoopExt.trans {w w1 w2 : World σ} (h1 : LoopExt w w1) (h2 : LoopExt w1 w2) :
    LoopExt w w2 := by
  obtain ⟨e1, t1, p1⟩ := h1
  obtain ⟨e2, t2, p2⟩ := h2
  refine ⟨e1 ++ e2, by rw [t2, t1, List.append_assoc], ?_⟩
  intro e he
  rcases List.mem_append.mp he with h | h
  · exact p1 e h
  · exact p2 e h

theorem LoopExt.emit_usleep (w : World σ) (us : Int) :
    LoopExt w (w.emit (Event.usleep us)) :=
  ⟨[Event.usleep us], rfl, by simp [Event.isLoop]⟩

theorem isLoop_of_isSensor (e : Event) (h : e.isSensor = true) : e.isLoop = true := by
  cases e <;> simp_all [Event.isSensor, Event.isLoop]

theorem FetchThermal_LoopExt (k : Kernel σ) (thermal : Thermal) (w : World σ) :
    LoopExt w (FetchThermal k thermal w).2.2 := by
  obtain ⟨evs, t, p⟩ := FetchThermal_trace k thermal w
  exact ⟨evs, t, fun e he => isLoop_of_isSensor e (p e he)⟩

theorem TrySwitch_LoopExt (k : Kernel σ) (level : Int) (w : World σ) :
    LoopExt w (TrySwitch k level w).2 := by
  rw [TrySwitch_eq]
  cases (k.fanLevelRead w.hw).1 with
  | none => exact ⟨[Event.fanLevelRead none], rfl, by simp [Event.isLoop]⟩
  | some p =>
    by_cases hp : p = level
    · simp only [hp, if_true]
      exact ⟨[Event.fanLevelRead (some level)], rfl, by simp [Event.isLoop]⟩
    · simp only [hp, if_false]
      refine ⟨_, rfl, ?_⟩
      cases (k.fanLevelWrite level (k.fanLevelRead w.hw).2).1 <;> simp [Event.isLoop]

theorem Handle_LoopExt (k : Kernel σ) (st : Statics) (hs : Handlers) (h : Ptr)
    (t : Int) (w : World σ) : LoopExt w (Handlers.Handle k st hs h t w).2.2 := by
  rcases Handle_shape k st hs h t w with ⟨_, hw⟩ | ⟨l, _, hw⟩
  · rw [hw]
    exact LoopExt.refl w
  · rw [hw]
    exact TrySwitch_LoopExt k l w

theorem handleTick_LoopExt (k : Kernel σ) (st : Statics) (hs : Handlers) (h : Ptr)
    (thermal : Thermal) (cpu : Int) (w : World σ) :
    LoopExt w (handleTick k st hs h thermal cpu w).2.w := by
  have hH := Handle_LoopExt k st hs h cpu w
  cases ho : (Handlers.Handle k st hs h cpu w).1 with
  | Ok =>
    rw [handleTick_Ok k st hs h thermal cpu w ho]
    exact hH.trans (LoopExt.emit_usleep _ _)
  | Err =>
    rw [handleTick_Err k st hs h thermal cpu w ho]
    exact hH
  | Out =>
    rw [handleTick_Out k st hs h thermal cpu w ho]
    split
    · exact hH
    · exact hH.trans (LoopExt.emit_usleep _ _)

theorem loopBody_LoopExt (k : Kernel σ) (st : Statics) (s : LoopState σ) (z : Ptr) :
    LoopExt s.w (loopBody k st s z).2.w := by
  have hF := FetchThermal_LoopExt k s.thermal s.w
  cases hf : (fetched k s).1 with
  | false =>
    rw [loopBody_of_fetch_fail k st s z hf]
    exact hF
  | true =>
    rw [loopBody_of_fetched_ok k st s z hf]
    exact hF.trans (handleTick_LoopExt k st s.hs z _ _ _)

theorem pollLoop_LoopExt (k : Kernel σ) (st : Statics) (fuel : Nat) :
    ∀ (s r : LoopState σ), pollLoop k st fuel s = some r → LoopExt s.w r.w := by
  induction fuel with
  | zero =>
    intro s r h
    cases hh : s.h with
    | none =>
      rw [pollLoop_null k st 0 s hh] at h
      rw [← Option.some.inj h]
      exact LoopExt.refl _
    | some z =>
      simp [pollLoop, hh] at h
  | succ n ih =>
    intro s r h
    cases hh : s.h with
    | none =>
      rw [pollLoop_null k st (n + 1) s hh] at h
      rw [← Option.some.inj h]
      exact LoopExt.refl _
    | some z =>
      rw [pollLoop_succ k st n s z hh] at h
      have hB := loopBody_LoopExt k st s z
      by_cases hb : (loopBody k st s z).1 = true
      · rw [if_pos hb] at h
        rw [← Option.some.inj h]
        exact hB
      · rw [if_neg hb] at h
        exact hB.trans (ih _ _ h)

/-- More fuel does not change the result of a poll loop that ended. -/
theorem pollLoop_mono (k : Kernel σ) (st : Statics) (fuel : Nat) :
    ∀ (s r : LoopState σ), pollLoop k st fuel s = some r →
      pollLoop k st (fuel + 1) s = some r := by
  induction fuel with
  | zero =>
    intro s r h
    cases hh : s.h with
    | none =>
      rw [pollLoop_null k st 0 s hh] at h
      rw [pollLoop_null k st 1 s hh]
      exact h
    | some z =>
      simp [pollLoop, hh] at h
  | succ n ih =>
    intro s r h
    cases hh : s.h with
    | none =>
      rw [pollLoop_null k st (n + 1) s hh] at h
      rw [pollLoop_null k st (n + 1 + 1) s hh]
      exact h
    | some z =>
      rw [pollLoop_succ k st n s z hh] at h
      rw [pollLoop_succ k st (n + 1) s z hh]
      by_cases hb : (loopBody k st s z).1 = true
      · rw [if_pos hb] at h
        rw [if_pos hb]
        exact h
      · rw [if_neg hb] at h
        rw [if_neg hb]
        exact ih _ _ h

theorem pollLoop_mono_le (k : Kernel σ) (st : Statics) (fuel n : Nat)
    (s r : LoopState σ) (h : pollLoop k st fuel s = some r) :
    pollLoop k st (fuel + n) s = some r := by
  induction n with
  | zero => exact h
  | succ m ih => exact pollLoop_mono k st (fuel + m) s r ih

/-- The whole trace of a run of `main` that got past startup and ended: the startup
events, then events of the poll loop, then the `end` line and the write that turns the
automatic mode back on, then the `recovered` line if that write worked; the exit code
is 0 if it worked and 1 if not. -/
theorem main_trace_of_startupOk (k : Kernel σ) (fuel : Nat) (thermal0 : Thermal)
    (hw0 : σ) (code : Int) (w : World σ) (hstart : startupOk k hw0 = true)
    (hrun : main k fuel thermal0 hw0 = some (code, w)) :
    ∃ (loopEvs : List Event) (ok : Bool),
      w.trace =
        [Event.setpriority nice true, Event.fanLevelWrite 1 true, Event.fanWrite 0 true,
         Event.cout Line.begin] ++ loopEvs ++
        [Event.cout Line.finish, Event.fanWrite 1 ok] ++
        (if ok = true then [Event.cout Line.recovered] else []) ∧
      (∀ e ∈ loopEvs, e.isLoop = true) ∧
      code = (if ok = true then 0 else 1) := by
  rw [main_of_startupOk k fuel thermal0 hw0 hstart] at hrun
  cases hp : pollLoop k mainStatics fuel (bootState k thermal0 hw0) with
  | none => rw [hp] at hrun; simp at hrun
  | some s =>
    rw [hp, Option.map_some', recover_eq] at hrun
    obtain ⟨evs, ht, hl⟩ := pollLoop_LoopExt k mainStatics fuel _ _ hp
    rw [bootState_trace k thermal0 hw0 hstart] at ht
    refine ⟨evs, (k.fanWrite 1 s.w.hw).1, ?_, hl, ?_⟩
    · cases hb : (k.fanWrite 1 s.w.hw).1 with
      | false =>
        rw [hb] at hrun
        simp only [Bool.false_eq_true, if_false, Option.some.injEq, Prod.mk.injEq] at hrun
        rw [← hrun.2]
        simp [ht]
      | true =>
        rw [hb] at hrun
        simp only [if_true, Option.some.injEq, Prod.mk.injEq] at hrun
        rw [← hrun.2]
        simp [ht]
    · cases hb : (k.fanWrite 1 s.w.hw).1 with
      | false =>
        rw [hb] at hrun
        simp only [Bool.false_eq_true, if_false, Option.some.injEq, Prod.mk.injEq] at hrun
        simp [← hrun.1]
      | true =>
        rw [hb] at hrun
        simp only [if_true, Option.some.injEq, Prod.mk.injEq] at hrun
        simp [← hrun.1]

/-! ## The restoration bracket and the exit code -/

theorem isRestore_of_isLoop (e : Event) (h : e.isLoop = true) : e.isRestore = false := by
  cases e <;> simp_all [Event.isLoop, Event.isRestore]

theorem countP_isRestore_loop (evs : List Event) (h : ∀ e ∈ evs, e.isLoop = true) :
    evs.countP Event.isRestore = 0 := by
  rw [List.countP_eq_zero]
  intro e he
  rw [isRestore_of_isLoop e (h e he)]
  decide

/-- C14: in every run of `main` that entered the poll loop and ended, the trace is the
startup events up to the `begin` line, then events of the poll loop, then the `end`
line and the write that turns automatic mode back on, then only the `recovered` line
when that write worked.  So the write is attempted exactly once, after the loop and
not before it, whatever ended the loop and whatever the write's own outcome, and no
event of the loop follows it. -/
theorem restore_exactly_once (k : Kernel σ) (fuel : Nat) (thermal0 : Thermal)
    (hw0 : σ) (code : Int) (w : World σ) (hstart : startupOk k hw0 = true)
    (hrun : main k fuel thermal0 hw0 = some (code, w)) :
    (∃ (loopEvs : List Event) (ok : Bool),
        w.trace =
          [Event.setpriority nice true, Event.fanLevelWrite 1 true, Event.fanWrite 0 true,
           Event.cout Line.begin] ++ loopEvs ++
          [Event.cout Line.finish, Event.fanWrite 1 ok] ++
          (if ok = true then [Event.cout Line.recovered] else []) ∧
        (∀ e ∈ loopEvs, e.isLoop = true)) ∧
      w.trace.countP Event.isRestore = 1 ∧
      (∀ n, main k (fuel + n) thermal0 hw0 = some (code, w)) := by
  obtain ⟨evs, ok, ht, hl, _⟩ := main_trace_of_startupOk k fuel thermal0 hw0 code w hstart hrun
  refine ⟨⟨evs, ok, ht, hl⟩, ?_, ?_⟩
  · rw [ht]
    simp only [List.countP_append, countP_isRestore_loop evs hl]
    cases ok <;> decide
  · intro n
    rw [main_of_startupOk k fuel thermal0 hw0 hstart] at hrun
    rw [main_of_startupOk k (fuel + n) thermal0 hw0 hstart]
    cases hp : pollLoop k mainStatics fuel (bootState k thermal0 hw0) with
    | none => rw [hp] at hrun; simp at hrun
    | some s =>
      rw [pollLoop_mono_le k mainStatics fuel n _ s hp]
      rw [hp] at hrun
      exact hrun

/-- On the simulated machine with no sensor reading available the loop ends at its
first fetch, and the run has one restoration write, at the end. -/
theorem restore_exactly_once_witness :
    startupOk (simKernel true) (simWorld 3 0 []).hw = true ∧
      main (simKernel true) 1 (simLoopState (simWorld 3 0 [])).thermal (simWorld 3 0 []).hw =
        some (0, { hw := { level := 1, failWrites := 0, temps := [] },
                   trace := [Event.setpriority nice true, Event.fanLevelWrite 1 true,
                     Event.fanWrite 0 true, Event.cout Line.begin,
                     Event.thermalLen (some 32), Event.thermalRead false,
                     Event.cout Line.finish, Event.fanWrite 1 true,
                     Event.cout Line.recovered] }) ∧
      List.countP Event.isRestore
        [Event.setpriority nice true, Event.fanLevelWrite 1 true,
          Event.fanWrite 0 true, Event.cout Line.begin,
          Event.thermalLen (some 32), Event.thermalRead false,
          Event.cout Line.finish, Event.fanWrite 1 true,
          Event.cout Line.recovered] = 1 :=
  ⟨by decide, rfl,
    (restore_exactly_once (simKernel true) 1 (simLoopState (simWorld 3 0 [])).thermal
      (simWorld 3 0 []).hw 0
      { hw := { level := 1, failWrites := 0, temps := [] },
        trace := [Event.setpriority nice true, Event.fanLevelWrite 1 true,
          Event.fanWrite 0 true, Event.cout Line.begin,
          Event.thermalLen (some 32), Event.thermalRead false,
          Event.cout Line.finish, Event.fanWrite 1 true,
          Event.cout Line.recovered] }
      (by decide) rfl).2.1⟩

/-- C15: for every run of `main` that ended, the exit code is 1 iff `setpriority`
failed, or it worked and the write of fan level 1 failed, or both worked and the write
that turns automatic mode off failed, or startup succeeded and the write that turns
automatic mode back on failed; otherwise the code is 0, whatever ended the loop.  When
startup fails the trace is only the startup calls up to the failing one and the error
line: no sensor read, no fan-level read, no `usleep`, no restoration write, and the
result does not depend on the fuel (the loop is not run). -/
theorem exit_code_classified (k : Kernel σ) (fuel : Nat) (thermal0 : Thermal)
    (hw0 : σ) (code : Int) (w : World σ)
    (hrun : main k fuel thermal0 hw0 = some (code, w)) :
    (code = 1 ↔
        ((k.setpriority nice hw0).1 = false ∨
          ((k.setpriority nice hw0).1 = true ∧
            (k.fanLevelWrite 1 (k.setpriority nice hw0).2).1 = false) ∨
          ((k.setpriority nice hw0).1 = true ∧
            (k.fanLevelWrite 1 (k.setpriority nice hw0).2).1 = true ∧
            (k.fanWrite 0 (k.fanLevelWrite 1 (k.setpriority nice hw0).2).2).1 = false) ∨
          (startupOk k hw0 = true ∧ Event.fanWrite 1 false ∈ w.trace))) ∧
      (code ≠ 1 → code = 0) ∧
      (startupOk k hw0 = false →
        (w.trace = [Event.setpriority nice false, Event.cout Line.reniceFailed] ∨
          w.trace = [Event.setpriority nice true, Event.fanLevelWrite 1 false,
            Event.cout Line.manualFailed] ∨
          w.trace = [Event.setpriority nice true, Event.fanLevelWrite 1 true,
            Event.fanWrite 0 false, Event.cout Line.manualFailed]) ∧
        (∀ e ∈ w.trace, e.isSensor = false ∧ e.isRestore = false ∧
          (∀ r, e ≠ Event.fanLevelRead r) ∧ (∀ us, e ≠ Event.usleep us)) ∧
        (∀ fuel', main k fuel' thermal0 hw0 = some (code, w))) := by
  by_cases hstart : startupOk k hw0 = true
  · obtain ⟨h1, h2, h3⟩ := (startupOk_iff k hw0).mp hstart
    obtain ⟨evs, ok, ht, hl, hc⟩ :=
      main_trace_of_startupOk k fuel thermal0 hw0 code w hstart hrun
    have hmem : Event.fanWrite 1 false ∈ w.trace ↔ ok = false := by
      rw [ht]
      constructor
      · intro hm
        simp only [List.mem_append, List.mem_cons, List.mem_singleton] at hm
        rcases hm with ((hm | hm) | hm) | hm
        · simp at hm
        · have := hl _ hm
          simp [Event.isLoop] at this
        · simpa using hm
        · cases ok <;> simp at hm
      · intro hok
        subst hok
        simp
    refine ⟨?_, ?_, ?_⟩
    · rw [hc, hmem]
      cases ok <;> simp [h1, h2, h3, hstart]
    · intro hne
      rw [hc] at hne ⊢
      cases ok <;> simp at hne ⊢
    · intro hf
      rw [hstart] at hf
      exact absurd hf (by decide)
  · have hstart' : startupOk k hw0 = false := by
      cases h : startupOk k hw0
      · rfl
      · exact absurd h hstart
    have hcases : (k.setpriority nice hw0).1 = false ∨
        ((k.setpriority nice hw0).1 = true ∧
          (k.fanLevelWrite 1 (k.setpriority nice hw0).2).1 = false) ∨
        ((k.setpriority nice hw0).1 = true ∧
          (k.fanLevelWrite 1 (k.setpriority nice hw0).2).1 = true ∧
          (k.fanWrite 0 (k.fanLevelWrite 1 (k.setpriority nice hw0).2).2).1 = false) := by
      have := hstart
      rw [startupOk_iff] at this
      cases h1 : (k.setpriority nice hw0).1
      · left; rfl
      · cases h2 : (k.fanLevelWrite 1 (k.setpriority nice hw0).2).1
        · right; left; exact ⟨rfl, rfl⟩
        · cases h3 : (k.fanWrite 0 (k.fanLevelWrite 1 (k.setpriority nice hw0).2).2).1
          · right; right; exact ⟨rfl, rfl, rfl⟩
          · exact absurd ⟨h1, h2, h3⟩ this
    have hmain : ∀ f, main k f thermal0 hw0 = main k fuel thermal0 hw0 := by
      intro f
      rw [main_eq, main_eq k fuel]
      rcases hcases with h1 | ⟨h1, h2⟩ | ⟨h1, h2, h3⟩
      · simp [h1]
      · simp [h1, h2]
      · simp [h1, h2, h3]
    have hcode : code = 1 ∧
        (w.trace = [Event.setpriority nice false, Event.cout Line.reniceFailed] ∨
          w.trace = [Event.setpriority nice true, Event.fanLevelWrite 1 false,
            Event.cout Line.manualFailed] ∨
          w.trace = [Event.setpriority nice true, Event.fanLevelWrite 1 true,
            Event.fanWrite 0 false, Event.cout Line.manualFailed]) := by
      rw [main_eq] at hrun
      rcases hcases with h1 | ⟨h1, h2⟩ | ⟨h1, h2, h3⟩
      · simp only [h1, if_true, Option.some.injEq, Prod.mk.injEq] at hrun
        exact ⟨hrun.1.symm, Or.inl (by rw [← hrun.2])⟩
      · simp only [h1, h2, Bool.true_eq_false, if_true, if_false, Option.some.injEq,
          Prod.mk.injEq] at hrun
        exact ⟨hrun.1.symm, Or.inr (Or.inl (by rw [← hrun.2]))⟩
      · simp only [h1, h2, h3, Bool.true_eq_false, if_true, if_false, Option.some.injEq,
          Prod.mk.injEq] at hrun
        exact ⟨hrun.1.symm, Or.inr (Or.inr (by rw [← hrun.2]))⟩
    refine ⟨?_, ?_, ?_⟩
    · constructor
      · intro _
        rcases hcases with h | h | h
        · exact Or.inl h
        · exact Or.inr (Or.inl h)
        · exact Or.inr (Or.inr (Or.inl h))
      · intro _
        exact hcode.1
    · intro hne
      exact absurd hcode.1 hne
    · intro _
      refine ⟨hcode.2, ?_, ?_⟩
      · rcases hcode.2 with ht | ht | ht <;> rw [ht] <;>
          simp [Event.isSensor, Event.isRestore]
      · intro f
        rw [hmain f]
        exact hrun

/-- On the simulated machine whose fan switch cannot be written, startup fails at the
second manual-mode write: exit code 1, and nothing but the startup calls happened. -/
theorem exit_code_classified_witness :
    main (simKernelFanFails true) 0 (simLoopState (simWorld 3 0 [])).thermal
        (simWorld 3 0 []).hw =
      some (1, { hw := { level := 1, failWrites := 0, temps := [] },
                 trace := [Event.setpriority nice true, Event.fanLevelWrite 1 true,
                   Event.fanWrite 0 false, Event.cout Line.manualFailed] }) ∧
      startupOk (simKernelFanFails true) (simWorld 3 0 []).hw = false ∧
      ∀ fuel', main (simKernelFanFails true) fuel' (simLoopState (simWorld 3 0 [])).thermal
          (simWorld 3 0 []).hw =
        some (1, { hw := { level := 1, failWrites := 0, temps := [] },
                   trace := [Event.setpriority nice true, Event.fanLevelWrite 1 true,
                     Event.fanWrite 0 false, Event.cout Line.manualFailed] }) :=
  ⟨rfl, by decide,
    ((exit_code_classified (simKernelFanFails true) 0
      (simLoopState (simWorld 3 0 [])).thermal (simWorld 3 0 []).hw 1
      { hw := { level := 1, failWrites := 0, temps := [] },
        trace := [Event.setpriority nice true, Event.fanLevelWrite 1 true,
          Event.fanWrite 0 false, Event.cout Line.manualFailed] }
      rfl).2.2 (by decide)).2.2⟩

/-! ## Exits and ranges -/

theorem LV1Handler_Handle_self (k : Kernel σ) (st : Statics) (h : LV1Handler) (t : Int)
    (w : World σ) : (h.Handle k st t w).2.1 = h := by
  unfold LV1Handler.Handle
  split <;> rfl

theorem LV2Handler_Handle_bounds (k : Kernel σ) (st : Statics) (h : LV2Handler) (t : Int)
    (w : World σ) :
    (h.Handle k st t w).2.1.min = h.min ∧ (h.Handle k st t w).2.1.max = h.max := by
  unfold LV2Handler.Handle
  split
  · exact ⟨rfl, rfl⟩
  · split
    · dsimp only
      split <;> exact ⟨rfl, rfl⟩
    · exact ⟨rfl, rfl⟩

theorem LV3Handler_Handle_bounds (k : Kernel σ) (st : Statics) (h : LV3Handler) (t : Int)
    (w : World σ) : (h.Handle k st t w).2.1.min = h.min := by
  unfold LV3Handler.Handle
  split
  · dsimp only
    split <;> rfl
  · rfl

/-- `Handle` leaves the thresholds of all three handlers as they are. -/
theorem Handle_thresholds (k : Kernel σ) (st : Statics) (hs : Handlers) (z : Ptr)
    (t : Int) (w : World σ) :
    (Handlers.Handle k st hs z t w).2.1.h1.max = hs.h1.max ∧
      (Handlers.Handle k st hs z t w).2.1.h2.min = hs.h2.min ∧
      (Handlers.Handle k st hs z t w).2.1.h2.max = hs.h2.max ∧
      (Handlers.Handle k st hs z t w).2.1.h3.min = hs.h3.min := by
  cases z with
  | h1 =>
    simp only [Handlers.Handle, LV1Handler_Handle_self]
    exact ⟨trivial, trivial, trivial, trivial⟩
  | h2 =>
    simp only [Handlers.Handle, (LV2Handler_Handle_bounds k st hs.h2 t w).1,
      (LV2Handler_Handle_bounds k st hs.h2 t w).2]
    exact ⟨trivial, trivial, trivial, trivial⟩
  | h3 =>
    simp only [Handlers.Handle, LV3Handler_Handle_bounds k st hs.h3 t w]
    exact ⟨trivial, trivial, trivial, trivial⟩

/-- The temperatures on which a `Handle` can return `Out`, when `max + MORE` does not
overflow. -/
theorem Handle_Out_temp (k : Kernel σ) (st : Statics) (hs : Handlers) (z : Ptr)
    (t : Int) (w : World σ)
    (h1lo : INT_MIN ≤ hs.h1.max + st.MORE) (h1hi : hs.h1.max + st.MORE ≤ INT_MAX)
    (h2lo : INT_MIN ≤ hs.h2.max + st.MORE) (h2hi : hs.h2.max + st.MORE ≤ INT_MAX)
    (ho : (Handlers.Handle k st hs z t w).1 = EmHandleRet.Out) :
    (z = Ptr.h1 → t > hs.h1.max + st.MORE) ∧
      (z = Ptr.h2 → t > hs.h2.max + st.MORE ∨ t ≤ hs.h2.min) ∧
      (z = Ptr.h3 → t ≤ hs.h3.min) := by
  cases z with
  | h1 =>
    refine ⟨fun _ => ?_, fun h => absurd h (by decide), fun h => absurd h (by decide)⟩
    simp only [Handlers.Handle, LV1Handler.Handle, wrapInt_eq_self h1lo h1hi] at ho
    by_contra hc
    rw [if_neg hc] at ho
    simp only [switchRet] at ho
    split at ho <;> exact absurd ho (by decide)
  | h2 =>
    refine ⟨fun h => absurd h (by decide), fun _ => ?_, fun h => absurd h (by decide)⟩
    simp only [Handlers.Handle, LV2Handler.Handle, wrapInt_eq_self h2lo h2hi] at ho
    by_contra hc
    push_neg at hc
    rw [if_neg (not_lt.mpr hc.1), if_neg (not_le.mpr hc.2)] at ho
    simp only [switchRet] at ho
    split at ho <;> exact absurd ho (by decide)
  | h3 =>
    refine ⟨fun h => absurd h (by decide), fun h => absurd h (by decide), fun _ => ?_⟩
    simp only [Handlers.Handle, LV3Handler.Handle] at ho
    by_contra hc
    rw [if_neg hc] at ho
    simp only [switchRet] at ho
    split at ho <;> exact absurd ho (by decide)

/-- C19: for `MORE >= 0` and `max + MORE` an `int`, a handler whose `InRange(t)` holds
does not return `Out` on `t` and is left unchanged (its counter included): its
`Handle` is exactly a `TrySwitch` of its own level, 1, 2 or 3.  The same holds for the
handler that the selector picks for `t`. -/
theorem Handle_in_range_stays (k : Kernel σ) (st : Statics) (hs : Handlers) (z : Ptr)
    (t : Int) (w : World σ) (hM : 0 ≤ st.MORE)
    (h1lo : INT_MIN ≤ hs.h1.max + st.MORE) (h1hi : hs.h1.max + st.MORE ≤ INT_MAX)
    (h2lo : INT_MIN ≤ hs.h2.max + st.MORE) (h2hi : hs.h2.max + st.MORE ≤ INT_MAX)
    (hin : hs.InRange z t = true ∨ FnPickHandler hs t = some z) :
    (Handlers.Handle k st hs z t w).1 ≠ EmHandleRet.Out ∧
      (Handlers.Handle k st hs z t w).2.1 = hs ∧
      (Handlers.Handle k st hs z t w).2.2 =
        (TrySwitch k (match z with | Ptr.h1 => 1 | Ptr.h2 => 2 | Ptr.h3 => 3) w).2 ∧
      (Handlers.Handle k st hs z t w).1 =
        (if (k.fanLevelRead w.hw).1.isSome then EmHandleRet.Ok else EmHandleRet.Err) := by
  have hin' : hs.InRange z t = true := by
    rcases hin with h | h
    · exact h
    · exact FnPickHandler_some_InRange hs t z h
  have hne : (if (k.fanLevelRead w.hw).1.isSome then EmHandleRet.Ok else EmHandleRet.Err)
      ≠ EmHandleRet.Out := by
    split <;> decide
  cases z with
  | h1 =>
    simp only [Handlers.InRange, LV1Handler.InRange, decide_eq_true_eq] at hin'
    have e : (Handlers.Handle k st hs Ptr.h1 t w) =
        (if (k.fanLevelRead w.hw).1.isSome then EmHandleRet.Ok else EmHandleRet.Err,
          hs, (TrySwitch k 1 w).2) := by
      simp only [Handlers.Handle, LV1Handler.Handle, wrapInt_eq_self h1lo h1hi]
      rw [if_neg (by omega)]
      simp only [switchRet_TrySwitch_fst, switchRet_snd]
    rw [e]
    exact ⟨hne, rfl, rfl, rfl⟩
  | h2 =>
    simp only [Handlers.InRange, LV2Handler.InRange, Bool.and_eq_true,
      decide_eq_true_eq] at hin'
    have e : (Handlers.Handle k st hs Ptr.h2 t w) =
        (if (k.fanLevelRead w.hw).1.isSome then EmHandleRet.Ok else EmHandleRet.Err,
          hs, (TrySwitch k 2 w).2) := by
      simp only [Handlers.Handle, LV2Handler.Handle, wrapInt_eq_self h2lo h2hi]
      rw [if_neg (by omega), if_neg (by omega)]
      simp only [switchRet_TrySwitch_fst, switchRet_snd]
    rw [e]
    exact ⟨hne, rfl, rfl, rfl⟩
  | h3 =>
    simp only [Handlers.InRange, LV3Handler.InRange, decide_eq_true_eq] at hin'
    have e : (Handlers.Handle k st hs Ptr.h3 t w) =
        (if (k.fanLevelRead w.hw).1.isSome then EmHandleRet.Ok else EmHandleRet.Err,
          hs, (TrySwitch k 3 w).2) := by
      simp only [Handlers.Handle, LV3Handler.Handle]
      rw [if_neg (by omega)]
      simp only [switchRet_TrySwitch_fst, switchRet_snd]
    rw [e]
    exact ⟨hne, rfl, rfl, rfl⟩

/-- With the handlers and statics of `main`, zone 2 stays on 45 even with its counter
at 59. -/
theorem Handle_in_range_stays_witness :
    (0 : Int) ≤ mainStatics.MORE ∧
      Handlers.InRange { mainHandlers with h2 := { min := 40, max := 50, escapeTimes := 59 } }
        Ptr.h2 45 = true ∧
      (Handlers.Handle (simKernel true) mainStatics
        { mainHandlers with h2 := { min := 40, max := 50, escapeTimes := 59 } }
        Ptr.h2 45 (simWorld 2 0 [])).1 ≠ EmHandleRet.Out :=
  ⟨by decide, by decide,
    (Handle_in_range_stays (simKernel true) mainStatics
      { mainHandlers with h2 := { min := 40, max := 50, escapeTimes := 59 } }
      Ptr.h2 45 (simWorld 2 0 []) (by decide) (by decide) (by decide) (by decide)
      (by decide) (Or.inl (by decide))).1⟩

/-- The selector for the thresholds of `main`. -/
theorem FnPickHandler_main (hs : Handlers) (t : Int) (e1 : hs.h1.max = 40)
    (e2 : hs.h2.min = 40) (e3 : hs.h2.max = 50) (e4 : hs.h3.min = 50) :
    FnPickHandler hs t =
      if t ≤ 40 then some Ptr.h1 else if t ≤ 50 then some Ptr.h2 else some Ptr.h3 := by
  rw [FnPickHandler_eq]
  simp only [LV1Handler.InRange, LV2Handler.InRange, LV3Handler.InRange, e1, e2, e3, e4,
    Bool.and_eq_true, decide_eq_true_eq]
  by_cases h1 : t ≤ 40
  · simp [h1]
  · by_cases h2 : t ≤ 50
    · have : t > 40 := by omega
      simp [h1, h2, this]
    · have h3 : t > 50 := by omega
      have h4 : ¬ (t > 40 ∧ t ≤ 50) := by omega
      simp [h1, h2, h3, h4]

/-- With the thresholds of `main` and `MORE = 5`, after an `Out` on `t` the selector
gives a zone other than the one that exited. -/
theorem Out_picks_other (k : Kernel σ) (st : Statics) (hs : Handlers) (z : Ptr)
    (t : Int) (w : World σ) (e1 : hs.h1.max = 40) (e2 : hs.h2.min = 40)
    (e3 : hs.h2.max = 50) (e4 : hs.h3.min = 50) (hM : st.MORE = 5)
    (hout : (Handlers.Handle k st hs z t w).1 = EmHandleRet.Out) :
    ∃ z', z' ≠ z ∧ FnPickHandler (Handlers.Handle k st hs z t w).2.1 t = some z' ∧
      FnPickHandler hs t = some z' := by
  obtain ⟨t1, t2, t3, t4⟩ := Handle_thresholds k st hs z t w
  rw [FnPickHandler_main _ t (t1.trans e1) (t2.trans e2) (t3.trans e3) (t4.trans e4),
    FnPickHandler_main hs t e1 e2 e3 e4]
  obtain ⟨o1, o2, o3⟩ := Handle_Out_temp k st hs z t w
    (by rw [e1, hM]; decide) (by rw [e1, hM]; decide)
    (by rw [e3, hM]; decide) (by rw [e3, hM]; decide) hout
  rw [e1, hM] at o1
  rw [e2, e3, hM] at o2
  rw [e4] at o3
  cases z with
  | h1 =>
    have := o1 rfl
    by_cases h50 : t ≤ 50
    · exact ⟨Ptr.h2, by decide, by rw [if_neg (by omega), if_pos h50],
        by rw [if_neg (by omega), if_pos h50]⟩
    · exact ⟨Ptr.h3, by decide, by rw [if_neg (by omega), if_neg h50],
        by rw [if_neg (by omega), if_neg h50]⟩
  | h2 =>
    rcases o2 rfl with h | h
    · exact ⟨Ptr.h3, by decide, by rw [if_neg (by omega), if_neg (by omega)],
        by rw [if_neg (by omega), if_neg (by omega)]⟩
    · exact ⟨Ptr.h1, by decide, by rw [if_pos h], by rw [if_pos h]⟩
  | h3 =>
    have := o3 rfl
    by_cases h40 : t ≤ 40
    · exact ⟨Ptr.h1, by decide, by rw [if_pos h40], by rw [if_pos h40]⟩
    · exact ⟨Ptr.h2, by decide, by rw [if_neg h40, if_pos this],
        by rw [if_neg h40, if_pos this]⟩

/-- C20: with the thresholds of `main` (40 and 50) and `MORE = 5`, whenever a `Handle`
returns `Out` on a temperature `t`, any integer, the selector applied to `t` returns a
zone, and one other than the zone that exited.  So in the loop body an `Out` always
takes the branch that makes the other zone active, without `usleep`: neither the
branch for the same zone nor an `h` left null occurs. -/
theorem Out_selects_other_zone (k : Kernel σ) (st : Statics) (hs : Handlers) (z : Ptr)
    (t : Int) (w : World σ) (e1 : hs.h1.max = 40) (e2 : hs.h2.min = 40)
    (e3 : hs.h2.max = 50) (e4 : hs.h3.min = 50) (hM : st.MORE = 5)
    (hout : (Handlers.Handle k st hs z t w).1 = EmHandleRet.Out) :
    ∃ z', z' ≠ z ∧
      FnPickHandler hs t = some z' ∧
      FnPickHandler (Handlers.Handle k st hs z t w).2.1 t = some z' ∧
      ∀ thermal : Thermal,
        handleTick k st hs z thermal t w =
          (false, { thermal := thermal, hs := (Handlers.Handle k st hs z t w).2.1,
                    h := some z', w := (Handlers.Handle k st hs z t w).2.2 }) := by
  obtain ⟨z', hne, hp, hp0⟩ := Out_picks_other k st hs z t w e1 e2 e3 e4 hM hout
  refine ⟨z', hne, hp0, hp, ?_⟩
  intro thermal
  rw [handleTick_Out k st hs z thermal t w hout, hp]
  rw [if_pos (fun he => hne (Option.some.inj he))]

/-- Zone 1 of `main` exits on the sentinel-free reading 46, and the selector then gives
zone 2. -/
theorem Out_selects_other_zone_witness :
    (Handlers.Handle (simKernel true) mainStatics mainHandlers Ptr.h1 46
        (simWorld 1 0 [])).1 = EmHandleRet.Out ∧
      ∃ z', z' ≠ Ptr.h1 ∧
        FnPickHandler mainHandlers 46 = some z' ∧
        FnPickHandler (Handlers.Handle (simKernel true) mainStatics mainHandlers Ptr.h1 46
          (simWorld 1 0 [])).2.1 46 = some z' ∧
        ∀ thermal : Thermal,
          handleTick (simKernel true) mainStatics mainHandlers Ptr.h1 thermal 46
              (simWorld 1 0 []) =
            (false, { thermal := thermal,
                      hs := (Handlers.Handle (simKernel true) mainStatics mainHandlers
                        Ptr.h1 46 (simWorld 1 0 [])).2.1,
                      h := some z',
                      w := (Handlers.Handle (simKernel true) mainStatics mainHandlers
                        Ptr.h1 46 (simWorld 1 0 [])).2.2 }) :=
  ⟨by decide,
    Out_selects_other_zone (simKernel true) mainStatics mainHandlers Ptr.h1 46
      (simWorld 1 0 []) rfl rfl rfl rfl rfl (by decide)⟩

/-! ## The escape counters along the poll loop -/

theorem LV3Handler_Handle_Out_zero (k : Kernel σ) (st : Statics) (h : LV3Handler)
    (t : Int) (w : World σ) (ho : (h.Handle k st t w).1 = EmHandleRet.Out) :
    (h.Handle k st t w).2.1.escapeTimes = 0 := by
  revert ho
  unfold LV3Handler.Handle
  split
  · dsimp only
    split
    · intro _; rfl
    · intro ho
      simp only [switchRet] at ho
      split at ho <;> exact absurd ho (by decide)
  · intro ho
    simp only [switchRet] at ho
    split at ho <;> exact absurd ho (by decide)

theorem LV2Handler_Handle_range (k : Kernel σ) (st : Statics) (h : LV2Handler)
    (t : Int) (w : World σ) (hH1 : 1 ≤ st.HOLD_TIMES) (hH2 : st.HOLD_TIMES ≤ INT_MAX)
    (hc0 : 0 ≤ h.escapeTimes) (hc1 : h.escapeTimes < st.HOLD_TIMES) :
    0 ≤ (h.Handle k st t w).2.1.escapeTimes ∧
      (h.Handle k st t w).2.1.escapeTimes < st.HOLD_TIMES := by
  have hw : wrapInt (h.escapeTimes + 1) = h.escapeTimes + 1 :=
    wrapInt_eq_self (by unfold INT_MIN; omega) (by omega)
  unfold LV2Handler.Handle
  split
  · exact ⟨le_refl _, by show (0 : Int) < st.HOLD_TIMES; omega⟩
  · split
    · dsimp only
      rw [hw]
      split
      · exact ⟨le_refl _, by show (0 : Int) < st.HOLD_TIMES; omega⟩
      · rename_i hlt
        exact ⟨by show 0 ≤ h.escapeTimes + 1; omega, by show h.escapeTimes + 1 < _; omega⟩
    · exact ⟨hc0, hc1⟩

theorem LV3Handler_Handle_range (k : Kernel σ) (st : Statics) (h : LV3Handler)
    (t : Int) (w : World σ) (hH1 : 1 ≤ st.HOLD_TIMES) (hH2 : st.HOLD_TIMES ≤ INT_MAX)
    (hc0 : 0 ≤ h.escapeTimes) (hc1 : h.escapeTimes < st.HOLD_TIMES) :
    0 ≤ (h.Handle k st t w).2.1.escapeTimes ∧
      (h.Handle k st t w).2.1.escapeTimes < st.HOLD_TIMES := by
  have hw : wrapInt (h.escapeTimes + 1) = h.escapeTimes + 1 :=
    wrapInt_eq_self (by unfold INT_MIN; omega) (by omega)
  unfold LV3Handler.Handle
  split
  · dsimp only
    rw [hw]
    split
    · exact ⟨le_refl _, by show (0 : Int) < st.HOLD_TIMES; omega⟩
    · rename_i hlt
      exact ⟨by show 0 ≤ h.escapeTimes + 1; omega, by show h.escapeTimes + 1 < _; omega⟩
  · exact ⟨hc0, hc1⟩

/-- What `Handle` on zone `z` does to the two escape counters. -/
theorem Handle_counters (k : Kernel σ) (st : Statics) (hs : Handlers) (z : Ptr)
    (t : Int) (w : World σ) (hH1 : 1 ≤ st.HOLD_TIMES) (hH2 : st.HOLD_TIMES ≤ INT_MAX)
    (hr : 0 ≤ hs.h2.escapeTimes ∧ hs.h2.escapeTimes < st.HOLD_TIMES ∧
      0 ≤ hs.h3.escapeTimes ∧ hs.h3.escapeTimes < st.HOLD_TIMES) :
    (0 ≤ (Handlers.Handle k st hs z t w).2.1.h2.escapeTimes ∧
        (Handlers.Handle k st hs z t w).2.1.h2.escapeTimes < st.HOLD_TIMES ∧
        0 ≤ (Handlers.Handle k st hs z t w).2.1.h3.escapeTimes ∧
        (Handlers.Handle k st hs z t w).2.1.h3.escapeTimes < st.HOLD_TIMES) ∧
      (z ≠ Ptr.h2 → (Handlers.Handle k st hs z t w).2.1.h2 = hs.h2) ∧
      (z ≠ Ptr.h3 → (Handlers.Handle k st hs z t w).2.1.h3 = hs.h3) ∧
      ((Handlers.Handle k st hs z t w).1 = EmHandleRet.Out →
        (z = Ptr.h2 → (Handlers.Handle k st hs z t w).2.1.h2.escapeTimes = 0) ∧
        (z = Ptr.h3 → (Handlers.Handle k st hs z t w).2.1.h3.escapeTimes = 0)) := by
  obtain ⟨a0, a1, b0, b1⟩ := hr
  cases z with
  | h1 =>
    refine ⟨⟨a0, a1, b0, b1⟩, fun _ => rfl, fun _ => rfl, fun _ => ?_⟩
    exact ⟨fun h => absurd h (by decide), fun h => absurd h (by decide)⟩
  | h2 =>
    have r := LV2Handler_Handle_range k st hs.h2 t w hH1 hH2 a0 a1
    refine ⟨⟨r.1, r.2, b0, b1⟩, fun h => absurd rfl h, fun _ => rfl, fun ho => ?_⟩
    exact ⟨fun _ => LV2Handler_Handle_Out_zero k st hs.h2 t w ho,
      fun h => absurd h (by decide)⟩
  | h3 =>
    have r := LV3Handler_Handle_range k st hs.h3 t w hH1 hH2 b0 b1
    refine ⟨⟨a0, a1, r.1, r.2⟩, fun _ => rfl, fun h => absurd rfl h, fun ho => ?_⟩
    exact ⟨fun h => absurd h (by decide),
      fun _ => LV3Handler_Handle_Out_zero k st hs.h3 t w ho⟩

/-- A pass of the poll loop keeps `CountersOk`. -/
theorem pass_CountersOk (k : Kernel σ) (st : Statics) (s s1 : LoopState σ)
    (hH1 : 1 ≤ st.HOLD_TIMES) (hH2 : st.HOLD_TIMES ≤ INT_MAX)
    (hinv : CountersOk st s) (hp : pass k st s = some s1) : CountersOk st s1 := by
  unfold pass at hp
  cases hz : s.h with
  | none => rw [hz] at hp; exact absurd hp (by simp)
  | some z =>
    rw [hz] at hp
    simp only at hp
    cases hf : (fetched k s).1 with
    | false =>
      rw [loopBody_of_fetch_fail k st s z hf] at hp
      exact absurd hp (by simp)
    | true =>
      obtain ⟨c1, c2, c3, c4⟩ := loopBody_cases k st s z hf
      obtain ⟨hr, hz2, hz3, hout⟩ := Handle_counters k st s.hs z
        ((fetched k s).2.1.at 0) (fetched k s).2.2 hH1 hH2 hinv.1
      have hinact := hinv.2 z hz
      -- the counters after `Handle`, when the zone stays active
      have hstay : ∀ z', z' = z →
          (z' ≠ Ptr.h2 → (handled k st s z).2.1.h2.escapeTimes = 0) ∧
          (z' ≠ Ptr.h3 → (handled k st s z).2.1.h3.escapeTimes = 0) := by
        intro z' hz'
        subst hz'
        constructor
        · intro hne
          show (Handlers.Handle k st s.hs z' _ _).2.1.h2.escapeTimes = 0
          rw [hz2 hne]
          exact hinact.1 hne
        · intro hne
          show (Handlers.Handle k st s.hs z' _ _).2.1.h3.escapeTimes = 0
          rw [hz3 hne]
          exact hinact.2 hne
      -- after an `Out` both counters are zero
      have hzero : (handled k st s z).1 = EmHandleRet.Out →
          (handled k st s z).2.1.h2.escapeTimes = 0 ∧
          (handled k st s z).2.1.h3.escapeTimes = 0 := by
        intro ho
        have := hout ho
        constructor
        · by_cases h2 : z = Ptr.h2
          · exact this.1 h2
          · exact (hstay z rfl).1 h2
        · by_cases h3 : z = Ptr.h3
          · exact this.2 h3
          · exact (hstay z rfl).2 h3
      cases ho : (handled k st s z).1 with
      | Ok =>
        rw [c1 ho] at hp
        simp only [Bool.false_eq_true, Option.some.injEq] at hp
        subst hp
        exact ⟨hr, fun z' hz' => hstay z' (Option.some.inj hz').symm⟩
      | Err =>
        rw [c2 ho] at hp
        simp only [Bool.false_eq_true, Option.some.injEq] at hp
        subst hp
        exact ⟨hr, fun z' hz' => absurd hz' (by simp)⟩
      | Out =>
        have hz0 := hzero ho
        by_cases hpk : FnPickHandler (handled k st s z).2.1 ((fetched k s).2.1.at 0) = some z
        · rw [c4 ho hpk] at hp
          simp only [Bool.false_eq_true, Option.some.injEq] at hp
          subst hp
          exact ⟨hr, fun _ _ => ⟨fun _ => hz0.1, fun _ => hz0.2⟩⟩
        · rw [c3 ho hpk] at hp
          simp only [Bool.false_eq_true, Option.some.injEq] at hp
          subst hp
          exact ⟨hr, fun _ _ => ⟨fun _ => hz0.1, fun _ => hz0.2⟩⟩

theorem passes_CountersOk (k : Kernel σ) (st : Statics)
    (hH1 : 1 ≤ st.HOLD_TIMES) (hH2 : st.HOLD_TIMES ≤ INT_MAX) (n : Nat) :
    ∀ (s0 s : LoopState σ), CountersOk st s0 → passes k st n s0 = some s →
      CountersOk st s := by
  induction n with
  | zero =>
    intro s0 s hinv hp
    simp only [passes, Option.some.injEq] at hp
    subst hp
    exact hinv
  | succ m ih =>
    intro s0 s hinv hp
    simp only [passes] at hp
    cases h1 : pass k st s0 with
    | none => rw [h1] at hp; exact absurd hp (by simp)
    | some s1 =>
      rw [h1] at hp
      exact ih s1 s (pass_CountersOk k st s0 s1 hH1 hH2 hinv h1) hp

theorem CountersOk_of_zero (st : Statics) (s : LoopState σ) (hH1 : 1 ≤ st.HOLD_TIMES)
    (h2 : s.hs.h2.escapeTimes = 0) (h3 : s.hs.h3.escapeTimes = 0) : CountersOk st s := by
  refine ⟨⟨by omega, by omega, by omega, by omega⟩, fun _ _ => ⟨fun _ => h2, fun _ => h3⟩⟩

/-- C17: whenever `Handle` of zone 2 or zone 3 returns `Out`, that zone's escape counter
is 0 afterwards.  Hence, for `1 <= HOLD_TIMES` (an `int`), in every state that the poll
loop reaches from a state with both counters 0, as the state on entry to the loop in
`main` is, both counters are in `[0, HOLD_TIMES)`, and while the loop is running the
counter of a zone that is not the active one is 0. -/
theorem fresh_debounce (k : Kernel σ) (st : Statics)
    (hH1 : 1 ≤ st.HOLD_TIMES) (hH2 : st.HOLD_TIMES ≤ INT_MAX) :
    (∀ (h : LV2Handler) (t : Int) (w : World σ),
        (h.Handle k st t w).1 = EmHandleRet.Out → (h.Handle k st t w).2.1.escapeTimes = 0) ∧
      (∀ (h : LV3Handler) (t : Int) (w : World σ),
        (h.Handle k st t w).1 = EmHandleRet.Out → (h.Handle k st t w).2.1.escapeTimes = 0) ∧
      (∀ (thermal0 : Thermal) (hw0 : σ),
        (bootState k thermal0 hw0).hs.h2.escapeTimes = 0 ∧
        (bootState k thermal0 hw0).hs.h3.escapeTimes = 0) ∧
      (∀ (s0 s : LoopState σ) (n : Nat),
        s0.hs.h2.escapeTimes = 0 → s0.hs.h3.escapeTimes = 0 →
        passes k st n s0 = some s →
        (0 ≤ s.hs.h2.escapeTimes ∧ s.hs.h2.escapeTimes < st.HOLD_TIMES ∧
          0 ≤ s.hs.h3.escapeTimes ∧ s.hs.h3.escapeTimes < st.HOLD_TIMES) ∧
        ∀ z, s.h = some z →
          (z ≠ Ptr.h2 → s.hs.h2.escapeTimes = 0) ∧
          (z ≠ Ptr.h3 → s.hs.h3.escapeTimes = 0)) := by
  refine ⟨LV2Handler_Handle_Out_zero k st, LV3Handler_Handle_Out_zero k st,
    fun _ _ => ⟨rfl, rfl⟩, ?_⟩
  intro s0 s n h2 h3 hp
  exact passes_CountersOk k st hH1 hH2 n s0 s (CountersOk_of_zero st s0 hH1 h2 h3) hp

/-- With the statics of `main`, after the passes on the readings 55 and 30 the loop is
in zone 3 with counters in range and the counter of zone 2 at 0. -/
theorem fresh_debounce_witness :
    (1 : Int) ≤ mainStatics.HOLD_TIMES ∧ mainStatics.HOLD_TIMES ≤ INT_MAX ∧
      passes (simKernel true) mainStatics 2
        (simLoopState (simWorld 1 0 [[55, 0, 0, 0, 0, 0, 0, 0], [30, 0, 0, 0, 0, 0, 0, 0]])) =
        some (loopBody (simKernel true) mainStatics
          (loopBody (simKernel true) mainStatics
            (simLoopState
              (simWorld 1 0 [[55, 0, 0, 0, 0, 0, 0, 0], [30, 0, 0, 0, 0, 0, 0, 0]]))
            Ptr.h1).2 Ptr.h3).2 ∧
      ((0 : Int) ≤ (loopBody (simKernel true) mainStatics
          (loopBody (simKernel true) mainStatics
            (simLoopState
              (simWorld 1 0 [[55, 0, 0, 0, 0, 0, 0, 0], [30, 0, 0, 0, 0, 0, 0, 0]]))
            Ptr.h1).2 Ptr.h3).2.hs.h2.escapeTimes ∧
        (loopBody (simKernel true) mainStatics
          (loopBody (simKernel true) mainStatics
            (simLoopState
              (simWorld 1 0 [[55, 0, 0, 0, 0, 0, 0, 0], [30, 0, 0, 0, 0, 0, 0, 0]]))
            Ptr.h1).2 Ptr.h3).2.hs.h2.escapeTimes < mainStatics.HOLD_TIMES ∧
        (0 : Int) ≤ (loopBody (simKernel true) mainStatics
          (loopBody (simKernel true) mainStatics
            (simLoopState
              (simWorld 1 0 [[55, 0, 0, 0, 0, 0, 0, 0], [30, 0, 0, 0, 0, 0, 0, 0]]))
            Ptr.h1).2 Ptr.h3).2.hs.h3.escapeTimes ∧
        (loopBody (simKernel true) mainStatics
          (loopBody (simKernel true) mainStatics
            (simLoopState
              (simWorld 1 0 [[55, 0, 0, 0, 0, 0, 0, 0], [30, 0, 0, 0, 0, 0, 0, 0]]))
            Ptr.h1).2 Ptr.h3).2.hs.h3.escapeTimes < mainStatics.HOLD_TIMES) :=
  ⟨by decide, by decide, rfl,
    ((fresh_debounce (simKernel true) mainStatics (by decide) (by decide)).2.2.2
      (simLoopState (simWorld 1 0 [[55, 0, 0, 0, 0, 0, 0, 0], [30, 0, 0, 0, 0, 0, 0, 0]]))
      _ 2 rfl rfl rfl).1⟩

/-! ## The cooling count is cumulative -/

theorem countP_take_succ_cons (p : Int → Bool) (t0 : Int) (ts : List Int) (m : Nat) :
    (((t0 :: ts).take (m + 1)).countP p : Int) =
      (if p t0 = true then 1 else 0) + ((ts.take m).countP p : Int) := by
  rw [List.take_succ_cons, List.countP_cons]
  split <;> push_cast <;> omega

theorem emod_succ_eq_zero_iff (c H : Int) (hc0 : 0 ≤ c) (hc1 : c < H) :
    (c + 1) % H = 0 ↔ c + 1 ≥ H := by
  constructor
  · intro h
    by_contra hlt
    rw [Int.emod_eq_of_lt (by omega) (by omega)] at h
    omega
  · intro h
    have : c + 1 = H := by omega
    rw [this]
    exact Int.emod_self

theorem emod_range (a H : Int) (hH : 1 ≤ H) : 0 ≤ a % H ∧ a % H < H :=
  ⟨Int.emod_nonneg a (by omega), Int.emod_lt_of_pos a (by omega)⟩

/-- One call of zone 2's `Handle` without upward exit, from a counter in
`[0, HOLD_TIMES)`: the counter becomes `(c + 1) % HOLD_TIMES` on a cool reading and
stays on any other, and the call returns `Out` iff the reading is cool and the new
counter is 0. -/
theorem LV2Handler_Handle_mod (k : Kernel σ) (st : Statics) (h : LV2Handler) (t : Int)
    (w : World σ) (hH2 : st.HOLD_TIMES ≤ INT_MAX)
    (hlo : INT_MIN ≤ h.max + st.MORE) (hhi : h.max + st.MORE ≤ INT_MAX)
    (hc0 : 0 ≤ h.escapeTimes) (hc1 : h.escapeTimes < st.HOLD_TIMES)
    (hup : t ≤ h.max + st.MORE) :
    (h.Handle k st t w).2.1.min = h.min ∧ (h.Handle k st t w).2.1.max = h.max ∧
      (h.Handle k st t w).2.1.escapeTimes =
        (h.escapeTimes + (if decide (t ≤ h.min) = true then 1 else 0)) % st.HOLD_TIMES ∧
      ((h.Handle k st t w).1 = EmHandleRet.Out ↔
        (t ≤ h.min ∧ (h.escapeTimes + 1) % st.HOLD_TIMES = 0)) := by
  have hb := LV2Handler_Handle_bounds k st h t w
  have e := LV2Handler_Handle_eq k st h t w hlo hhi
    (by unfold INT_MIN; omega) (by omega)
  have hz := emod_succ_eq_zero_iff h.escapeTimes st.HOLD_TIMES hc0 hc1
  refine ⟨hb.1, hb.2, ?_, ?_⟩
  · rw [e, if_neg (by omega)]
    by_cases h2 : t ≤ h.min
    · by_cases h3 : h.escapeTimes + 1 ≥ st.HOLD_TIMES
      · simp only [h2, h3, and_self, if_true, decide_True]
        exact (hz.mpr h3).symm
      · simp only [h2, h3, and_false, if_false, if_true, decide_True]
        exact (Int.emod_eq_of_lt (by omega) (by omega)).symm
    · simp only [h2, false_and, if_false, decide_False, Bool.false_eq_true, add_zero]
      exact (Int.emod_eq_of_lt hc0 hc1).symm
  · rw [e, if_neg (by omega), hz]
    by_cases hc : t ≤ h.min ∧ h.escapeTimes + 1 ≥ st.HOLD_TIMES
    · simp [hc]
    · simp only [hc, if_false, iff_false]
      split <;> simp

/-- One call of zone 3's `Handle` from a counter in `[0, HOLD_TIMES)`. -/
theorem LV3Handler_Handle_mod (k : Kernel σ) (st : Statics) (h : LV3Handler) (t : Int)
    (w : World σ) (hH2 : st.HOLD_TIMES ≤ INT_MAX)
    (hc0 : 0 ≤ h.escapeTimes) (hc1 : h.escapeTimes < st.HOLD_TIMES) :
    (h.Handle k st t w).2.1.min = h.min ∧
      (h.Handle k st t w).2.1.escapeTimes =
        (h.escapeTimes + (if decide (t ≤ h.min) = true then 1 else 0)) % st.HOLD_TIMES ∧
      ((h.Handle k st t w).1 = EmHandleRet.Out ↔
        (t ≤ h.min ∧ (h.escapeTimes + 1) % st.HOLD_TIMES = 0)) := by
  have hb := LV3Handler_Handle_bounds k st h t w
  have e := LV3Handler_Handle_eq k st h t w
    (by unfold INT_MIN; omega) (by omega)
  have hz := emod_succ_eq_zero_iff h.escapeTimes st.HOLD_TIMES hc0 hc1
  refine ⟨hb, ?_, ?_⟩
  · rw [e]
    by_cases h2 : t ≤ h.min
    · by_cases h3 : h.escapeTimes + 1 ≥ st.HOLD_TIMES
      · simp only [h2, h3, and_self, if_true, decide_True]
        exact (hz.mpr h3).symm
      · simp only [h2, h3, and_false, if_false, if_true, decide_True]
        exact (Int.emod_eq_of_lt (by omega) (by omega)).symm
    · simp only [h2, false_and, if_false, decide_False, Bool.false_eq_true, add_zero]
      exact (Int.emod_eq_of_lt hc0 hc1).symm
  · rw [e, hz]
    by_cases hc : t ≤ h.min ∧ h.escapeTimes + 1 ≥ st.HOLD_TIMES
    · simp [hc]
    · simp only [hc, if_false, iff_false]
      split <;> simp

/-- Feeding zone 2 from a counter `c` in `[0, HOLD_TIMES)`, with no reading above
`max + MORE`: the counter ends as `c` plus the number of cool readings, modulo
`HOLD_TIMES`, and tick `n` returns `Out` iff its reading is cool and `c` plus the
number of cool readings up to it is a multiple of `HOLD_TIMES`. -/
theorem LV2Handler_feed_mod (k : Kernel σ) (st : Statics)
    (hH2 : st.HOLD_TIMES ≤ INT_MAX) (ts : List Int) :
    ∀ (h : LV2Handler) (w : World σ),
      INT_MIN ≤ h.max + st.MORE → h.max + st.MORE ≤ INT_MAX →
      0 ≤ h.escapeTimes → h.escapeTimes < st.HOLD_TIMES →
      (∀ t ∈ ts, t ≤ h.max + st.MORE) →
      (LV2Handler.feed k st h ts w).2.1.escapeTimes =
          (h.escapeTimes + (ts.countP (fun x => decide (x ≤ h.min)) : Int)) %
            st.HOLD_TIMES ∧
        ∀ n : Nat, ((LV2Handler.feed k st h ts w).1[n]? = some EmHandleRet.Out ↔
          ∃ t, ts[n]? = some t ∧ t ≤ h.min ∧
            (h.escapeTimes + ((ts.take (n + 1)).countP (fun x => decide (x ≤ h.min)) : Int)) %
              st.HOLD_TIMES = 0) := by
  induction ts with
  | nil =>
    intro h w _ _ hc0 hc1 _
    refine ⟨?_, fun n => ?_⟩
    · simp only [LV2Handler.feed, List.countP_nil, Nat.cast_zero, add_zero]
      exact (Int.emod_eq_of_lt hc0 hc1).symm
    · simp [LV2Handler.feed]
  | cons t0 ts ih =>
    intro h w hlo hhi hc0 hc1 hup
    obtain ⟨m1, m2, m3, m4⟩ := LV2Handler_Handle_mod k st h t0 w hH2 hlo hhi hc0 hc1
      (hup t0 (List.mem_cons_self t0 ts))
    have hH1 : 1 ≤ st.HOLD_TIMES := by omega
    have hr := emod_range
      (h.escapeTimes + (if decide (t0 ≤ h.min) = true then 1 else 0)) st.HOLD_TIMES hH1
    rw [← m3] at hr
    obtain ⟨i1, i2⟩ := ih (h.Handle k st t0 w).2.1 (h.Handle k st t0 w).2.2
      (by rw [m2]; exact hlo) (by rw [m2]; exact hhi) hr.1 hr.2
      (fun t ht => by rw [m2]; exact hup t (List.mem_cons_of_mem t0 ht))
    rw [m1] at i1 i2
    refine ⟨?_, fun n => ?_⟩
    · simp only [LV2Handler.feed]
      rw [i1, m3, Int.emod_add_emod, List.countP_cons]
      congr 1
      split <;> push_cast <;> omega
    · cases n with
      | zero =>
        simp only [LV2Handler.feed, List.getElem?_cons_zero, Option.some.injEq, zero_add]
        rw [m4]
        have hct := countP_take_succ_cons (fun x => decide (x ≤ h.min)) t0 ts 0
        simp only [zero_add, List.take_zero, List.countP_nil, Nat.cast_zero, add_zero] at hct
        rw [hct]
        constructor
        · intro ⟨hcool, hz⟩
          refine ⟨t0, rfl, hcool, ?_⟩
          simp only [hcool, decide_True, if_true]
          exact hz
        · intro ⟨t, ht, hcool, hz⟩
          subst ht
          simp only [hcool, decide_True, if_true] at hz
          exact ⟨hcool, hz⟩
      | succ m =>
        simp only [LV2Handler.feed, List.getElem?_cons_succ]
        rw [i2 m, m3, countP_take_succ_cons]
        simp only [Int.emod_add_emod, add_assoc]

/-- Feeding zone 3 from a counter `c` in `[0, HOLD_TIMES)`. -/
theorem LV3Handler_feed_mod (k : Kernel σ) (st : Statics)
    (hH2 : st.HOLD_TIMES ≤ INT_MAX) (ts : List Int) :
    ∀ (h : LV3Handler) (w : World σ),
      0 ≤ h.escapeTimes → h.escapeTimes < st.HOLD_TIMES →
      (LV3Handler.feed k st h ts w).2.1.escapeTimes =
          (h.escapeTimes + (ts.countP (fun x => decide (x ≤ h.min)) : Int)) %
            st.HOLD_TIMES ∧
        ∀ n : Nat, ((LV3Handler.feed k st h ts w).1[n]? = some EmHandleRet.Out ↔
          ∃ t, ts[n]? = some t ∧ t ≤ h.min ∧
            (h.escapeTimes + ((ts.take (n + 1)).countP (fun x => decide (x ≤ h.min)) : Int)) %
              st.HOLD_TIMES = 0) := by
  induction ts with
  | nil =>
    intro h w hc0 hc1
    refine ⟨?_, fun n => ?_⟩
    · simp only [LV3Handler.feed, List.countP_nil, Nat.cast_zero, add_zero]
      exact (Int.emod_eq_of_lt hc0 hc1).symm
    · simp [LV3Handler.feed]
  | cons t0 ts ih =>
    intro h w hc0 hc1
    obtain ⟨m1, m3, m4⟩ := LV3Handler_Handle_mod k st h t0 w hH2 hc0 hc1
    have hH1 : 1 ≤ st.HOLD_TIMES := by omega
    have hr := emod_range
      (h.escapeTimes + (if decide (t0 ≤ h.min) = true then 1 else 0)) st.HOLD_TIMES hH1
    rw [← m3] at hr
    obtain ⟨i1, i2⟩ := ih (h.Handle k st t0 w).2.1 (h.Handle k st t0 w).2.2 hr.1 hr.2
    rw [m1] at i1 i2
    refine ⟨?_, fun n => ?_⟩
    · simp only [LV3Handler.feed]
      rw [i1, m3, Int.emod_add_emod, List.countP_cons]
      congr 1
      split <;> push_cast <;> omega
    · cases n with
      | zero =>
        simp only [LV3Handler.feed, List.getElem?_cons_zero, Option.some.injEq, zero_add]
        rw [m4]
        have hct := countP_take_succ_cons (fun x => decide (x ≤ h.min)) t0 ts 0
        simp only [zero_add, List.take_zero, List.countP_nil, Nat.cast_zero, add_zero] at hct
        rw [hct]
        constructor
        · intro ⟨hcool, hz⟩
          refine ⟨t0, rfl, hcool, ?_⟩
          simp only [hcool, decide_True, if_true]
          exact hz
        · intro ⟨t, ht, hcool, hz⟩
          subst ht
          simp only [hcool, decide_True, if_true] at hz
          exact ⟨hcool, hz⟩
      | succ m =>
        simp only [LV3Handler.feed, List.getElem?_cons_succ]
        rw [i2 m, m3, countP_take_succ_cons]
        simp only [Int.emod_add_emod, add_assoc]

/-- C18: the cooling count is cumulative.  For `1 <= HOLD_TIMES` (an `int`), feed zone 2
from counter 0 a sequence with no reading above `max + MORE` (no upward exit), or feed
zone 3 from counter 0 any sequence: the call at tick `n` returns `Out` iff its reading
is `<= min` and the number of readings `<= min` up to and including it is a multiple
of `HOLD_TIMES`, that is, iff the count of such readings since the counter was last 0
has just reached `HOLD_TIMES`; the counter is always that count modulo `HOLD_TIMES`.
A reading above `min` in between leaves the counter as it is. -/
theorem cooling_count_cumulative (k : Kernel σ) (st : Statics)
    (hH1 : 1 ≤ st.HOLD_TIMES) (hH2 : st.HOLD_TIMES ≤ INT_MAX) :
    (∀ (h : LV2Handler) (ts : List Int) (w : World σ) (n : Nat),
        h.escapeTimes = 0 → INT_MIN ≤ h.max + st.MORE → h.max + st.MORE ≤ INT_MAX →
        (∀ t ∈ ts, t ≤ h.max + st.MORE) →
        ((LV2Handler.feed k st h ts w).1[n]? = some EmHandleRet.Out ↔
          ∃ t, ts[n]? = some t ∧ t ≤ h.min ∧
            (((ts.take (n + 1)).countP (fun x => decide (x ≤ h.min)) : Nat) : Int) %
              st.HOLD_TIMES = 0) ∧
        (LV2Handler.feed k st h ts w).2.1.escapeTimes =
          ((ts.countP (fun x => decide (x ≤ h.min)) : Nat) : Int) % st.HOLD_TIMES) ∧
      (∀ (h : LV3Handler) (ts : List Int) (w : World σ) (n : Nat),
        h.escapeTimes = 0 →
        ((LV3Handler.feed k st h ts w).1[n]? = some EmHandleRet.Out ↔
          ∃ t, ts[n]? = some t ∧ t ≤ h.min ∧
            (((ts.take (n + 1)).countP (fun x => decide (x ≤ h.min)) : Nat) : Int) %
              st.HOLD_TIMES = 0) ∧
        (LV3Handler.feed k st h ts w).2.1.escapeTimes =
          ((ts.countP (fun x => decide (x ≤ h.min)) : Nat) : Int) % st.HOLD_TIMES) ∧
      (∀ (h : LV2Handler) (t : Int) (w : World σ),
        INT_MIN ≤ h.max + st.MORE → h.max + st.MORE ≤ INT_MAX →
        h.min < t → t ≤ h.max + st.MORE →
        (h.Handle k st t w).2.1.escapeTimes = h.escapeTimes) ∧
      (∀ (h : LV3Handler) (t : Int) (w : World σ),
        h.min < t → (h.Handle k st t w).2.1.escapeTimes = h.escapeTimes) := by
  refine ⟨?_, ?_, ?_, ?_⟩
  · intro h ts w n hc hlo hhi hup
    obtain ⟨i1, i2⟩ := LV2Handler_feed_mod k st hH2 ts h w hlo hhi
      (by rw [hc]) (by rw [hc]; omega) hup
    rw [hc] at i1 i2
    simp only [zero_add] at i1 i2
    exact ⟨i2 n, i1⟩
  · intro h ts w n hc
    obtain ⟨i1, i2⟩ := LV3Handler_feed_mod k st hH2 ts h w
      (by rw [hc]) (by rw [hc]; omega)
    rw [hc] at i1 i2
    simp only [zero_add] at i1 i2
    exact ⟨i2 n, i1⟩
  · intro h t w hlo hhi h1 h2
    unfold LV2Handler.Handle
    rw [wrapInt_eq_self hlo hhi, if_neg (by omega), if_neg (by omega)]
  · intro h t w h1
    unfold LV3Handler.Handle
    rw [if_neg (by omega)]

/-- With the statics of `main`: feeding zone 2 the reading 39 for 59 ticks, then 41,
then 39, the call at tick index 60 is the 60th cool one and returns `Out`. -/
theorem cooling_count_cumulative_witness :
    (1 : Int) ≤ mainStatics.HOLD_TIMES ∧ mainStatics.HOLD_TIMES ≤ INT_MAX ∧
      (LV2Handler.feed (simKernel true) mainStatics mainHandlers.h2
        (List.replicate 59 39 ++ [41, 39]) (simWorld 2 0 [])).1[60]?
        = some EmHandleRet.Out :=
  ⟨by decide, by decide,
    ((cooling_count_cumulative (simKernel true) mainStatics (by decide) (by decide)).1
      mainHandlers.h2 (List.replicate 59 39 ++ [41, 39]) (simWorld 2 0 []) 60
      rfl (by decide) (by decide) (by decide)).1.mpr
      ⟨39, by decide, by decide, by decide⟩⟩

/-! ## Zone switches without a sleep in between -/

/-- The four ways in which a pass of the poll loop goes round again. -/
theorem pass_some_cases (k : Kernel σ) (st : Statics) (s s1 : LoopState σ)
    (hp : pass k st s = some s1) :
    ∃ z, s.h = some z ∧ (fetched k s).1 = true ∧
      (((handled k st s z).1 = EmHandleRet.Ok ∧
          s1 = { thermal := (fetched k s).2.1, hs := (handled k st s z).2.1, h := some z,
                 w := (handled k st s z).2.2.emit (Event.usleep (tick * 1000)) }) ∨
        ((handled k st s z).1 = EmHandleRet.Err ∧
          s1 = { thermal := (fetched k s).2.1, hs := (handled k st s z).2.1, h := none,
                 w := (handled k st s z).2.2 }) ∨
        ((handled k st s z).1 = EmHandleRet.Out ∧
          FnPickHandler (handled k st s z).2.1 ((fetched k s).2.1.at 0) ≠ some z ∧
          s1 = { thermal := (fetched k s).2.1, hs := (handled k st s z).2.1,
                 h := FnPickHandler (handled k st s z).2.1 ((fetched k s).2.1.at 0),
                 w := (handled k st s z).2.2 }) ∨
        ((handled k st s z).1 = EmHandleRet.Out ∧
          FnPickHandler (handled k st s z).2.1 ((fetched k s).2.1.at 0) = some z ∧
          s1 = { thermal := (fetched k s).2.1, hs := (handled k st s z).2.1, h := some z,
                 w := (handled k st s z).2.2.emit (Event.usleep (tick * 1000)) })) := by
  unfold pass at hp
  cases hz : s.h with
  | none => rw [hz] at hp; exact absurd hp (by simp)
  | some z =>
    rw [hz] at hp
    simp only at hp
    refine ⟨z, rfl, ?_⟩
    cases hf : (fetched k s).1 with
    | false =>
      rw [loopBody_of_fetch_fail k st s z hf] at hp
      exact absurd hp (by simp)
    | true =>
      refine ⟨rfl, ?_⟩
      obtain ⟨c1, c2, c3, c4⟩ := loopBody_cases k st s z hf
      cases ho : (handled k st s z).1 with
      | Ok =>
        rw [c1 ho] at hp
        simp only [Bool.false_eq_true, Option.some.injEq] at hp
        exact Or.inl ⟨rfl, hp.symm⟩
      | Err =>
        rw [c2 ho] at hp
        simp only [Bool.false_eq_true, Option.some.injEq] at hp
        exact Or.inr (Or.inl ⟨rfl, hp.symm⟩)
      | Out =>
        by_cases hpk : FnPickHandler (handled k st s z).2.1 ((fetched k s).2.1.at 0) = some z
        · rw [c4 ho hpk] at hp
          simp only [Bool.false_eq_true, Option.some.injEq] at hp
          exact Or.inr (Or.inr (Or.inr ⟨rfl, hpk, hp.symm⟩))
        · rw [c3 ho hpk] at hp
          simp only [Bool.false_eq_true, Option.some.injEq] at hp
          exact Or.inr (Or.inr (Or.inl ⟨rfl, hpk, hp.symm⟩))

/-- Every pass that goes round again leaves its handlers as `Handle` did. -/
theorem pass_hs (k : Kernel σ) (st : Statics) (s s1 : LoopState σ)
    (hp : pass k st s = some s1) :
    ∃ z, s.h = some z ∧ s1.hs = (handled k st s z).2.1 := by
  obtain ⟨z, hz, _, hc⟩ := pass_some_cases k st s s1 hp
  refine ⟨z, hz, ?_⟩
  rcases hc with ⟨_, e⟩ | ⟨_, e⟩ | ⟨_, _, e⟩ | ⟨_, _, e⟩ <;> rw [e]

theorem pass_MainInv (k : Kernel σ) (s s1 : LoopState σ) (hinv : MainInv s)
    (hp : pass k mainStatics s = some s1) : MainInv s1 := by
  obtain ⟨e1, e2, e3, e4, hc⟩ := hinv
  obtain ⟨z, _, hhs⟩ := pass_hs k mainStatics s s1 hp
  obtain ⟨t1, t2, t3, t4⟩ := Handle_thresholds k mainStatics s.hs z
    ((fetched k s).2.1.at 0) (fetched k s).2.2
  refine ⟨?_, ?_, ?_, ?_, pass_CountersOk k mainStatics s s1 (by decide) (by decide) hc hp⟩
  · rw [hhs]; exact t1.trans e1
  · rw [hhs]; exact t2.trans e2
  · rw [hhs]; exact t3.trans e3
  · rw [hhs]; exact t4.trans e4

theorem passes_MainInv (k : Kernel σ) (n : Nat) :
    ∀ (s0 s : LoopState σ), MainInv s0 → passes k mainStatics n s0 = some s → MainInv s := by
  induction n with
  | zero =>
    intro s0 s hinv hp
    simp only [passes, Option.some.injEq] at hp
    subst hp
    exact hinv
  | succ m ih =>
    intro s0 s hinv hp
    simp only [passes] at hp
    cases h1 : pass k mainStatics s0 with
    | none => rw [h1] at hp; exact absurd hp (by simp)
    | some s1 =>
      rw [h1] at hp
      exact ih s1 s (pass_MainInv k s0 s1 hinv h1) hp

theorem bootState_MainInv (k : Kernel σ) (thermal0 : Thermal) (hw0 : σ) :
    MainInv (bootState k thermal0 hw0) :=
  ⟨rfl, rfl, rfl, rfl, CountersOk_of_zero mainStatics _ (by decide) rfl rfl⟩

/-- With the constants of `main`: an `Out` of zone 2 on a reading that is not above 55
needs its counter at 59, and so does any `Out` of zone 3. -/
theorem Handle_Out_counter (k : Kernel σ) (hs : Handlers) (z : Ptr) (t : Int)
    (w : World σ) (e3 : hs.h2.max = 50)
    (hr : 0 ≤ hs.h2.escapeTimes ∧ hs.h2.escapeTimes < 60 ∧
      0 ≤ hs.h3.escapeTimes ∧ hs.h3.escapeTimes < 60)
    (ho : (Handlers.Handle k mainStatics hs z t w).1 = EmHandleRet.Out) :
    (z = Ptr.h2 → t > 55 ∨ hs.h2.escapeTimes + 1 ≥ 60) ∧
      (z = Ptr.h3 → hs.h3.escapeTimes + 1 ≥ 60) := by
  have hM : mainStatics.MORE = 5 := rfl
  have hH : mainStatics.HOLD_TIMES = 60 := by decide
  obtain ⟨a0, a1, b0, b1⟩ := hr
  cases z with
  | h1 => exact ⟨fun h => absurd h (by decide), fun h => absurd h (by decide)⟩
  | h2 =>
    refine ⟨fun _ => ?_, fun h => absurd h (by decide)⟩
    simp only [Handlers.Handle] at ho
    rw [LV2Handler_Handle_eq k mainStatics hs.h2 t w (by rw [e3, hM]; decide)
      (by rw [e3, hM]; decide) (by unfold INT_MIN; omega) (by unfold INT_MAX; omega),
      e3, hM, hH] at ho
    by_contra hc
    push_neg at hc
    rw [if_neg (by omega), if_neg (by omega)] at ho
    simp only at ho
    split at ho <;> exact absurd ho (by decide)
  | h3 =>
    refine ⟨fun h => absurd h (by decide), fun _ => ?_⟩
    simp only [Handlers.Handle] at ho
    rw [LV3Handler_Handle_eq k mainStatics hs.h3 t w (by unfold INT_MIN; omega)
      (by unfold INT_MAX; omega), hH] at ho
    by_contra hc
    rw [if_neg (by omega)] at ho
    simp only at ho
    split at ho <;> exact absurd ho (by decide)

/-- A pass that switches the zone leaves both counters at 0; if both were 0 before,
the new zone lies above the old one. -/
theorem switch_pass (k : Kernel σ) (s s1 : LoopState σ) (hinv : MainInv s)
    (hp : pass k mainStatics s = some s1) (hsw : switched s s1 = true) :
    (s1.hs.h2.escapeTimes = 0 ∧ s1.hs.h3.escapeTimes = 0) ∧
      (s.hs.h2.escapeTimes = 0 → s.hs.h3.escapeTimes = 0 → zonesAbove s1 < zonesAbove s) := by
  have hinv1 := pass_MainInv k s s1 hinv hp
  obtain ⟨e1, e2, e3, e4, hc⟩ := hinv
  have hH : mainStatics.HOLD_TIMES = 60 := by decide
  have hr := hc.1
  rw [hH] at hr
  obtain ⟨z, hz, _, hcs⟩ := pass_some_cases k mainStatics s s1 hp
  simp only [switched, Bool.and_eq_true, decide_eq_true_eq] at hsw
  rcases hcs with ⟨_, e⟩ | ⟨_, e⟩ | ⟨ho, hpk, e⟩ | ⟨_, _, e⟩
  · rw [e, hz] at hsw
    exact absurd rfl hsw.2
  · rw [e] at hsw
    exact absurd hsw.1 (by simp)
  · obtain ⟨z', hne, hp', _⟩ := Out_picks_other k mainStatics s.hs z
      ((fetched k s).2.1.at 0) (fetched k s).2.2 e1 e2 e3 e4 rfl ho
    have hp'' : FnPickHandler (handled k mainStatics s z).2.1 ((fetched k s).2.1.at 0)
        = some z' := hp'
    have hs1h : s1.h = some z' := by rw [e]; exact hp''
    have hcnt := hinv1.2.2.2.2.2 z' hs1h
    -- the counter of the zone that exited is 0, and it is not the active one now
    obtain ⟨_, hz2, hz3, hout⟩ := Handle_counters k mainStatics s.hs z
      ((fetched k s).2.1.at 0) (fetched k s).2.2 (by decide) (by decide) hc.1
    have hs1hs : s1.hs = (handled k mainStatics s z).2.1 := by rw [e]
    have hzero := hout ho
    have hinact := hc.2 z hz
    have c2 : s1.hs.h2.escapeTimes = 0 := by
      by_cases h2 : z = Ptr.h2
      · rw [hs1hs]; exact hzero.1 h2
      · rw [hs1hs]
        show (Handlers.Handle k mainStatics s.hs z _ _).2.1.h2.escapeTimes = 0
        rw [hz2 h2]
        exact hinact.1 h2
    have c3 : s1.hs.h3.escapeTimes = 0 := by
      by_cases h3 : z = Ptr.h3
      · rw [hs1hs]; exact hzero.2 h3
      · rw [hs1hs]
        show (Handlers.Handle k mainStatics s.hs z _ _).2.1.h3.escapeTimes = 0
        rw [hz3 h3]
        exact hinact.2 h3
    refine ⟨⟨c2, c3⟩, ?_⟩
    intro f2 f3
    obtain ⟨o1, o2, _⟩ := Handle_Out_temp k mainStatics s.hs z
      ((fetched k s).2.1.at 0) (fetched k s).2.2
      (by rw [e1]; decide) (by rw [e1]; decide) (by rw [e3]; decide) (by rw [e3]; decide) ho
    obtain ⟨q2, q3⟩ := Handle_Out_counter k s.hs z
      ((fetched k s).2.1.at 0) (fetched k s).2.2 e3 hr ho
    have hM : mainStatics.MORE = 5 := rfl
    rw [← hs1hs, FnPickHandler_main _ _ hinv1.1 hinv1.2.1 hinv1.2.2.1 hinv1.2.2.2.1] at hp''
    cases z with
    | h1 =>
      have ht := o1 rfl
      rw [e1, hM] at ht
      rw [if_neg (by omega)] at hp''
      unfold zonesAbove
      rw [hz, hs1h]
      split at hp''
      · rw [← Option.some.inj hp'']; decide
      · rw [← Option.some.inj hp'']; decide
    | h2 =>
      have ht : (fetched k s).2.1.at 0 > 55 := by
        rcases q2 rfl with h | h
        · exact h
        · rw [f2] at h; omega
      rw [if_neg (by omega), if_neg (by omega)] at hp''
      unfold zonesAbove
      rw [hz, hs1h, ← Option.some.inj hp'']
      decide
    | h3 =>
      have := q3 rfl
      rw [f3] at this
      omega
  · rw [e, hz] at hsw
    exact absurd rfl hsw.2

/-- From a state with both counters 0, a chain of switching passes is no longer than
the number of zones above the active one. -/
theorem switchChain_fresh (k : Kernel σ) (m : Nat) :
    ∀ s : LoopState σ, MainInv s → s.hs.h2.escapeTimes = 0 → s.hs.h3.escapeTimes = 0 →
      switchChain k mainStatics m s = true → m ≤ zonesAbove s := by
  induction m with
  | zero => intro s _ _ _ _; exact Nat.zero_le _
  | succ n ih =>
    intro s hinv f2 f3 hch
    simp only [switchChain] at hch
    cases hp : pass k mainStatics s with
    | none => rw [hp] at hch; exact absurd hch (by simp)
    | some s1 =>
      rw [hp] at hch
      simp only [Bool.and_eq_true] at hch
      obtain ⟨⟨g2, g3⟩, hlt⟩ := switch_pass k s s1 hinv hp hch.1
      have := ih s1 (pass_MainInv k s s1 hinv hp) g2 g3 hch.2
      have := hlt f2 f3
      omega

theorem zonesAbove_le (s : LoopState σ) : zonesAbove s ≤ 2 := by
  unfold zonesAbove
  split <;> omega

/-- No four passes in a row all switch the zone. -/
theorem switchChain_four (k : Kernel σ) (s : LoopState σ) (hinv : MainInv s) :
    switchChain k mainStatics 4 s = false := by
  cases hch : switchChain k mainStatics 4 s with
  | false => rfl
  | true =>
    exfalso
    simp only [switchChain] at hch
    cases hp : pass k mainStatics s with
    | none => rw [hp] at hch; exact absurd hch (by simp)
    | some s1 =>
      rw [hp] at hch
      have hch' : switched s s1 = true ∧ switchChain k mainStatics 3 s1 = true := by
        simpa [switchChain, Bool.and_eq_true] using hch
      obtain ⟨⟨g2, g3⟩, _⟩ := switch_pass k s s1 hinv hp hch'.1
      have h3 := switchChain_fresh k 3 s1 (pass_MainInv k s s1 hinv hp) g2 g3 hch'.2
      have := zonesAbove_le s1
      omega

theorem Handle_Out_world (k : Kernel σ) (st : Statics) (hs : Handlers) (z : Ptr)
    (t : Int) (w : World σ) (ho : (Handlers.Handle k st hs z t w).1 = EmHandleRet.Out) :
    (Handlers.Handle k st hs z t w).2.2 = w := by
  rcases Handle_shape k st hs z t w with ⟨_, hw⟩ | ⟨l, hl, _⟩
  · exact hw
  · rw [hl] at ho
    simp only [switchRet] at ho
    split at ho <;> exact absurd ho (by decide)

/-- A pass that goes round again either switched the zone, having done nothing but
read the sensors, or it left `h` null, or it kept the zone and ended in `usleep`. -/
theorem pass_switch_or_sleep (k : Kernel σ) (st : Statics) (s s1 : LoopState σ)
    (hp : pass k st s = some s1) :
    (switched s s1 = true →
        ∃ evs, s1.w.trace = s.w.trace ++ evs ∧ ∀ e ∈ evs, e.isSensor = true) ∧
      (switched s s1 = false →
        s1.h = none ∨
        (s1.h = s.h ∧ ∃ pre, s1.w.trace = pre ++ [Event.usleep (tick * 1000)])) := by
  obtain ⟨z, hz, _, hcs⟩ := pass_some_cases k st s s1 hp
  rcases hcs with ⟨_, e⟩ | ⟨_, e⟩ | ⟨ho, hpk, e⟩ | ⟨_, _, e⟩
  · constructor
    · intro hsw
      simp only [switched, Bool.and_eq_true, decide_eq_true_eq] at hsw
      rw [e, hz] at hsw
      exact absurd rfl hsw.2
    · intro _
      right
      rw [e, hz]
      exact ⟨rfl, _, rfl⟩
  · constructor
    · intro hsw
      simp only [switched, Bool.and_eq_true, decide_eq_true_eq] at hsw
      rw [e] at hsw
      exact absurd hsw.1 (by simp)
    · intro _
      left
      rw [e]
  · constructor
    · intro _
      have hw : s1.w = (fetched k s).2.2 := by
        rw [e]
        exact Handle_Out_world k st s.hs z _ _ ho
      rw [hw]
      exact FetchThermal_trace k s.thermal s.w
    · intro hsw
      cases hpk' : FnPickHandler (handled k st s z).2.1 ((fetched k s).2.1.at 0) with
      | none =>
        left
        rw [e]
        exact hpk'
      | some z' =>
        exfalso
        have h1 : s1.h = some z' := by rw [e]; exact hpk'
        have h2 : switched s s1 = true := by
          simp only [switched, Bool.and_eq_true, decide_eq_true_eq]
          rw [h1, hz]
          refine ⟨rfl, ?_⟩
          intro he
          rw [hpk'] at hpk
          exact hpk he
        rw [h2] at hsw
        exact absurd hsw (by decide)
  · constructor
    · intro hsw
      simp only [switched, Bool.and_eq_true, decide_eq_true_eq] at hsw
      rw [e, hz] at hsw
      exact absurd rfl hsw.2
    · intro _
      right
      rw [e, hz]
      exact ⟨rfl, _, rfl⟩

theorem Handle_h1_55 (k : Kernel σ) (w : World σ) :
    Handlers.Handle k mainStatics mainHandlers Ptr.h1 55 w =
      (EmHandleRet.Out, mainHandlers, w) := by
  simp only [Handlers.Handle, LV1Handler.Handle]
  rw [if_pos (by decide)]

theorem Handle_h3_55 (k : Kernel σ) (w : World σ) :
    Handlers.Handle k mainStatics mainHandlers Ptr.h3 55 w =
      (if (k.fanLevelRead w.hw).1.isSome then EmHandleRet.Ok else EmHandleRet.Err,
        mainHandlers, (TrySwitch k 3 w).2) := by
  simp only [Handlers.Handle, LV3Handler.Handle]
  rw [if_neg (by decide)]
  simp only [switchRet_TrySwitch_fst, switchRet_snd]

/-- C13: with the constants of `main`, from every state that the poll loop reaches from
its state on entry, no four passes in a row all switch the active zone; and a pass that
goes round again without switching the zone either leaves `h` null (the loop ends) or
ends in `usleep`, while a switching pass only reads the sensors.  So at most 3 zone
switches happen between two sleeps, or between a sleep and the end of the loop.  In
particular, when the first two fetches work and read 55, the first pass goes from
zone 1 to zone 3 without a sleep or a fan-level access, and the second pass is a
`TrySwitch(3)`, followed by `usleep` if the fan-level read succeeds. -/
theorem bounded_reselection (k : Kernel σ) :
    (∀ (thermal0 : Thermal) (hw0 : σ) (n : Nat) (s : LoopState σ),
        passes k mainStatics n (bootState k thermal0 hw0) = some s →
        switchChain k mainStatics 4 s = false) ∧
      (∀ (s s1 : LoopState σ), pass k mainStatics s = some s1 →
        (switched s s1 = true →
          ∃ evs, s1.w.trace = s.w.trace ++ evs ∧ ∀ e ∈ evs, e.isSensor = true) ∧
        (switched s s1 = false →
          s1.h = none ∨
          (s1.h = s.h ∧ ∃ pre, s1.w.trace = pre ++ [Event.usleep (tick * 1000)]))) ∧
      (∀ (thermal0 : Thermal) (hw0 : σ) (s1 : LoopState σ),
        (fetched k (bootState k thermal0 hw0)).1 = true →
        (fetched k (bootState k thermal0 hw0)).2.1.at 0 = 55 →
        s1 = { thermal := (fetched k (bootState k thermal0 hw0)).2.1, hs := mainHandlers,
               h := some Ptr.h3, w := (fetched k (bootState k thermal0 hw0)).2.2 } →
        pass k mainStatics (bootState k thermal0 hw0) = some s1 ∧
        ((fetched k s1).1 = true → (fetched k s1).2.1.at 0 = 55 →
          loopBody k mainStatics s1 Ptr.h3 =
            (false,
              if (k.fanLevelRead (fetched k s1).2.2.hw).1.isSome then
                { thermal := (fetched k s1).2.1, hs := mainHandlers, h := some Ptr.h3,
                  w := (TrySwitch k 3 (fetched k s1).2.2).2.emit
                    (Event.usleep (tick * 1000)) }
              else
                { thermal := (fetched k s1).2.1, hs := mainHandlers, h := none,
                  w := (TrySwitch k 3 (fetched k s1).2.2).2 }))) := by
  refine ⟨?_, ?_, ?_⟩
  · intro thermal0 hw0 n s hp
    exact switchChain_four k s
      (passes_MainInv k n _ s (bootState_MainInv k thermal0 hw0) hp)
  · intro s s1 hp
    exact pass_switch_or_sleep k mainStatics s s1 hp
  · intro thermal0 hw0 s1 hf h55 hs1
    have hb : (bootState k thermal0 hw0).h = some Ptr.h1 := by
      show FnPickHandler mainHandlers 10 = some Ptr.h1
      decide
    have hbs : (bootState k thermal0 hw0).hs = mainHandlers := rfl
    constructor
    · obtain ⟨_, _, c3, _⟩ := loopBody_cases k mainStatics (bootState k thermal0 hw0) Ptr.h1 hf
      have hH : handled k mainStatics (bootState k thermal0 hw0) Ptr.h1 =
          (EmHandleRet.Out, mainHandlers, (fetched k (bootState k thermal0 hw0)).2.2) := by
        unfold handled
        rw [hbs, h55]
        exact Handle_h1_55 k _
      have hpk : FnPickHandler mainHandlers (55 : Int) = some Ptr.h3 := by decide
      have e := c3 (by rw [hH]) (by rw [hH, h55, hpk]; decide)
      rw [hH, h55, hpk] at e
      unfold pass
      rw [hb]
      simp only [e, hs1]
    · intro hf1 h551
      obtain ⟨c1, c2, _, _⟩ := loopBody_cases k mainStatics s1 Ptr.h3 hf1
      have hs1hs : s1.hs = mainHandlers := by rw [hs1]
      have hH : handled k mainStatics s1 Ptr.h3 =
          (if (k.fanLevelRead (fetched k s1).2.2.hw).1.isSome then EmHandleRet.Ok
            else EmHandleRet.Err,
            mainHandlers, (TrySwitch k 3 (fetched k s1).2.2).2) := by
        unfold handled
        rw [hs1hs, h551]
        exact Handle_h3_55 k _
      cases hr : (k.fanLevelRead (fetched k s1).2.2.hw).1.isSome with
      | true =>
        rw [hr] at hH
        have e := c1 (by rw [hH]; rfl)
        rw [hH] at e
        rw [e]
        simp
      | false =>
        rw [hr] at hH
        have e := c2 (by rw [hH]; rfl)
        rw [hH] at e
        rw [e]
        simp

/-- The bound is reached.  On the simulated machine with the readings `simChainTemps`,
after 60 passes the loop is in zone 3 with its counter at 59; the next three passes
switch to zone 1, zone 2 and zone 3, and the fourth does not switch. -/
theorem bounded_reselection_witness :
    switchChain (simKernel true) mainStatics 3
        ((passes (simKernel true) mainStatics 60
          (bootState (simKernel true) (simLoopState (simWorld 3 0 [])).thermal
            (simWorld 3 0 simChainTemps).hw)).get (by decide)) = true ∧
      switchChain (simKernel true) mainStatics 4
        ((passes (simKernel true) mainStatics 60
          (bootState (simKernel true) (simLoopState (simWorld 3 0 [])).thermal
            (simWorld 3 0 simChainTemps).hw)).get (by decide)) = false :=
  ⟨by decide,
    (bounded_reselection (simKernel true)).1 (simLoopState (simWorld 3 0 [])).thermal
      (simWorld 3 0 simChainTemps).hw 60 _ (Option.some_get _).symm⟩

end Fand
